import Mathlib

/-!
# Verification of the theme color-generation core

Shallow embedding of `src/color-generation.md`'s TypeScript utilities
(`isValidHex`, `hexToHSL`, `hslToHex`, `generateShadesFromPrimary`,
`getLuminance`, `getContrastRatio`, `getContrastTextColor`).

Numbers are modelled exactly: the purely rational computations
(`hexToHSL`, `hslToHex`) over `ℚ`, with `round x = ⌊x + 1/2⌋` matching
JavaScript `Math.round`; the WCAG luminance pipeline (which raises a
rational to the power 2.4) over `ℝ` with `Real.rpow`.
Functions that `throw` are modelled with `Option` (`none` = throw).
-/

namespace ColorGen

/-- The `HSL` interface of the source: three numeric fields.  `hexToHSL`
only ever produces `Math.round`ed values, hence integer fields. -/
structure HSL where
  h : ℤ
  s : ℤ
  l : ℤ
  deriving DecidableEq, Repr

/-- One character of the class `[a-f\d]` (case-insensitive flag `i` also
allows `A`–`F`), as used by `HEX_REGEX`. -/
def isHexDigitChar (c : Char) : Bool :=
  (('0' ≤ c) && (c ≤ '9')) || (('a' ≤ c) && (c ≤ 'f')) || (('A' ≤ c) && (c ≤ 'F'))

/-- Numeric value of one hex digit, as used by `parseInt(_, 16)`. -/
def hexDigitVal (c : Char) : ℕ :=
  if '0' ≤ c ∧ c ≤ '9' then c.toNat - '0'.toNat
  else if 'a' ≤ c ∧ c ≤ 'f' then c.toNat - 'a'.toNat + 10
  else if 'A' ≤ c ∧ c ≤ 'F' then c.toNat - 'A'.toNat + 10
  else 0

/-- `HEX_REGEX.exec`: an optional leading `#` followed by exactly six hex
digits; returns the six digit characters on a match. -/
def hexDigits (s : String) : Option (List Char) :=
  match s.data with
  | '#' :: rest =>
      if rest.length == 6 && rest.all isHexDigitChar then some rest else none
  | cs =>
      if cs.length == 6 && cs.all isHexDigitChar then some cs else none

/-- `isValidHex(hex) = HEX_REGEX.test(hex)`. -/
def isValidHex (hex : String) : Bool :=
  (hexDigits hex).isSome

/-- `parseInt` of one two-digit capture group. -/
def pairVal (c₁ c₂ : Char) : ℕ :=
  16 * hexDigitVal c₁ + hexDigitVal c₂

/-- The three byte values of the regex capture groups
`result[1]`, `result[2]`, `result[3]`. -/
def parseHex (hex : String) : Option (ℕ × ℕ × ℕ) :=
  match hexDigits hex with
  | some [c₁, c₂, c₃, c₄, c₅, c₆] =>
      some (pairVal c₁ c₂, pairVal c₃ c₄, pairVal c₅ c₆)
  | _ => none

/-- The hue fraction (0–1 sector value divided by 6) computed by
`hexToHSL` in its `max !== min` branch. -/
def hueFrac (r g b : ℚ) : ℚ :=
  let mx := max r (max g b)
  let mn := min r (min g b)
  let d := mx - mn
  if mx = r then ((g - b) / d + (if g < b then (6:ℚ) else 0)) / 6
  else if mx = g then ((b - r) / d + 2) / 6
  else ((r - g) / d + 4) / 6

/-- The saturation fraction `l > 0.5 ? d / (2 - max - min) : d / (max + min)`
computed by `hexToHSL` in its `max !== min` branch. -/
def satFrac (r g b : ℚ) : ℚ :=
  let mx := max r (max g b)
  let mn := min r (min g b)
  let l := (mx + mn) / 2
  let d := mx - mn
  if l > 1/2 then d / (2 - mx - mn) else d / (mx + mn)

/-- Body of `hexToHSL` on the three parsed byte values. -/
def hslOfBytes (rn gn bn : ℕ) : HSL :=
  let r : ℚ := rn / 255
  let g : ℚ := gn / 255
  let b : ℚ := bn / 255
  let mx := max r (max g b)
  let mn := min r (min g b)
  let l := (mx + mn) / 2
  if mx = mn then
    ⟨0, 0, round (l * 100)⟩
  else
    ⟨round (hueFrac r g b * 360), round (satFrac r g b * 100), round (l * 100)⟩

/-- `hexToHSL`: `none` models the `throw new Error` on a regex mismatch. -/
def hexToHSL (hex : String) : Option HSL :=
  match parseHex hex with
  | none => none
  | some (rn, gn, bn) => some (hslOfBytes rn gn bn)

/-- JavaScript `x % y`; for the nonnegative dividends arising in
`hslToHex` (`n + h/30 ≥ 0` for `h ≥ 0`) this floor form is exact. -/
def jsMod (x y : ℚ) : ℚ :=
  x - y * ⌊x / y⌋

/-- The clamp factor `Math.max(Math.min(k - 3, 9 - k, 1), -1)` of the
local `f` of `hslToHex`. -/
def gval (k : ℚ) : ℚ :=
  max (min (k - 3) (min (9 - k) 1)) (-1)

/-- The channel value `color` computed by the local `f` of `hslToHex`
(after the `s /= 100; l /= 100` normalization), before byte rounding. -/
def hslColor (h s l n : ℚ) : ℚ :=
  let a := s / 100 * min (l / 100) (1 - l / 100)
  let k := jsMod (n + h / 30) 12
  l / 100 - a * gval k

/-- `Math.round(255 * color)` of the local `f` of `hslToHex`. -/
def hslByte (h s l n : ℚ) : ℤ :=
  round (255 * hslColor h s l n)

/-- `.toString(16).padStart(2, '0')` for the byte range `0 ≤ n ≤ 255`
established in the theorems below (JavaScript's sign formatting for
negative numbers is never reached there). -/
def byteHex (n : ℤ) : String :=
  let ds := Nat.toDigits 16 n.toNat
  String.mk (if ds.length < 2 then '0' :: ds else ds)

/-- `hslToHex(h, s, l)`. -/
def hslToHex (h s l : ℚ) : String :=
  "#" ++ byteHex (hslByte h s l 0) ++ byteHex (hslByte h s l 8) ++ byteHex (hslByte h s l 4)

/-- Executable validity check of `byteHex`'s output, used to verify all
256 byte values by evaluation. -/
def byteHexOK (m : ℕ) : Bool :=
  match (byteHex (m : ℤ)).data with
  | [c₁, c₂] => isHexDigitChar c₁ && isHexDigitChar c₂ && (pairVal c₁ c₂ == m)
  | _ => false

/-- `generateShadesFromPrimary`: `none` models the propagated throw. -/
def generateShadesFromPrimary (primaryHex : String) : Option (List String) :=
  match hexToHSL primaryHex with
  | none => none
  | some hsl =>
      some (([92, 78, 64, 50, 36] : List ℚ).map fun l => hslToHex (hsl.h : ℚ) (hsl.s : ℚ) l)

/-- The hex-string format as worded by the spec (for C8): a string of the
form `#RRGGBB` or `RRGGBB` with six case-insensitive hexadecimal digits. -/
def specValidHex (s : String) : Prop :=
  ∃ ds : List Char, (s.data = ds ∨ s.data = '#' :: ds) ∧
    ds.length = 6 ∧ ∀ c ∈ ds, isHexDigitChar c = true

/-- The per-channel gamma adjustment of `getLuminance`:
`val <= 0.03928 ? val / 12.92 : Math.pow((val + 0.055) / 1.055, 2.4)`. -/
noncomputable def adjustChannel (c : ℝ) : ℝ :=
  if c ≤ 0.03928 then c / 12.92 else ((c + 0.055) / 1.055) ^ (2.4 : ℝ)

/-- `getLuminance`: returns `0` for a regex mismatch (the source returns
`0` rather than throwing there). -/
noncomputable def getLuminance (hex : String) : ℝ :=
  match parseHex hex with
  | none => 0
  | some (rn, gn, bn) =>
      0.2126 * adjustChannel (rn / 255) + 0.7152 * adjustChannel (gn / 255) +
        0.0722 * adjustChannel (bn / 255)

/-- `getContrastRatio(foreground, background)`. -/
noncomputable def getContrastRatio (foreground background : String) : ℝ :=
  let L1 := getLuminance foreground
  let L2 := getLuminance background
  (max L1 L2 + 0.05) / (min L1 L2 + 0.05)

/-- `getContrastTextColor(hexBackground)`. -/
noncomputable def getContrastTextColor (hexBackground : String) : String :=
  let ratioBlack := getContrastRatio "#010101" hexBackground
  let ratioWhite := getContrastRatio "#FFFFFF" hexBackground
  if ratioBlack ≥ 4.5 ∧ ratioWhite ≥ 4.5 then
    if ratioBlack ≥ ratioWhite then "#010101" else "#FFFFFF"
  else if ratioBlack ≥ 4.5 then "#010101"
  else if ratioWhite ≥ 4.5 then "#FFFFFF"
  else if ratioBlack ≥ ratioWhite then "#010101" else "#FFFFFF"

/-! ## Basic facts about rounding and parsing -/

lemma round_eq_of (q : ℚ) (n : ℤ) (h₁ : (n:ℚ) ≤ q + 1/2) (h₂ : q + 1/2 < n + 1) :
    round q = n := by
  rw [round_eq]
  exact Int.floor_eq_iff.mpr ⟨by exact_mod_cast h₁, by exact_mod_cast h₂⟩

lemma round_mono {x y : ℚ} (h : x ≤ y) : round x ≤ round y := by
  rw [round_eq, round_eq]
  exact Int.floor_le_floor (by linarith)

lemma round_nonneg {x : ℚ} (h : 0 ≤ x) : 0 ≤ round x := by
  rw [round_eq]
  exact Int.le_floor.mpr (by push_cast; linarith)

lemma round_le_of_le {x : ℚ} {n : ℤ} (h : x ≤ n) : round x ≤ n := by
  rw [round_eq]
  exact Int.lt_add_one_iff.mp (Int.floor_lt.mpr (by push_cast; linarith))

lemma round_close (x : ℚ) : |(round x : ℚ) - x| ≤ 1/2 := by
  have := abs_sub_round x
  rw [abs_sub_comm] at this
  exact this

lemma hexDigitVal_lt (c : Char) : hexDigitVal c < 16 := by
  unfold hexDigitVal
  split_ifs with h₁ h₂ h₃
  · have h := h₁.2
    have e : '0'.toNat = 48 := rfl
    have : c.toNat ≤ 57 := h
    omega
  · have h := h₂.2
    have e : 'a'.toNat = 97 := rfl
    have : c.toNat ≤ 102 := h
    omega
  · have h := h₃.2
    have e : 'A'.toNat = 65 := rfl
    have : c.toNat ≤ 70 := h
    omega
  · omega

lemma pairVal_lt (c₁ c₂ : Char) : pairVal c₁ c₂ < 256 := by
  have h₁ := hexDigitVal_lt c₁
  have h₂ := hexDigitVal_lt c₂
  unfold pairVal
  omega

lemma hexDigits_spec {s : String} {l : List Char} (h : hexDigits s = some l) :
    l.length = 6 ∧ ∀ c ∈ l, isHexDigitChar c = true := by
  unfold hexDigits at h
  split at h
  · split_ifs at h with hc
    simp only [Option.some.injEq] at h
    subst h
    simp only [Bool.and_eq_true, beq_iff_eq, List.all_eq_true] at hc
    exact ⟨hc.1, hc.2⟩
  · split_ifs at h with hc
    simp only [Option.some.injEq] at h
    subst h
    simp only [Bool.and_eq_true, beq_iff_eq, List.all_eq_true] at hc
    exact ⟨hc.1, hc.2⟩

lemma list_len6 {l : List Char} (h : l.length = 6) :
    ∃ c₁ c₂ c₃ c₄ c₅ c₆, l = [c₁, c₂, c₃, c₄, c₅, c₆] := by
  match l, h with
  | [c₁, c₂, c₃, c₄, c₅, c₆], _ => exact ⟨c₁, c₂, c₃, c₄, c₅, c₆, rfl⟩

lemma parseHex_of_hexDigits {s : String} {l : List Char} (h : hexDigits s = some l) :
    ∃ t, parseHex s = some t := by
  obtain ⟨hlen, -⟩ := hexDigits_spec h
  obtain ⟨c₁, c₂, c₃, c₄, c₅, c₆, rfl⟩ := list_len6 hlen
  exact ⟨_, by rw [parseHex, h]⟩

lemma isValidHex_iff_parseHex {s : String} :
    isValidHex s = true ↔ ∃ t, parseHex s = some t := by
  constructor
  · intro h
    rw [isValidHex, Option.isSome_iff_exists] at h
    obtain ⟨l, hl⟩ := h
    exact parseHex_of_hexDigits hl
  · rintro ⟨t, ht⟩
    rw [isValidHex, Option.isSome_iff_exists]
    rw [parseHex] at ht
    split at ht
    · next l heq => exact ⟨_, heq⟩
    · exact absurd ht (by simp)

lemma parseHex_bytes_lt {s : String} {rn gn bn : ℕ}
    (h : parseHex s = some (rn, gn, bn)) : rn < 256 ∧ gn < 256 ∧ bn < 256 := by
  rw [parseHex] at h
  split at h
  · next c₁ c₂ c₃ c₄ c₅ c₆ heq =>
    simp only [Option.some.injEq, Prod.mk.injEq] at h
    obtain ⟨h₁, h₂, h₃⟩ := h
    exact ⟨h₁ ▸ pairVal_lt _ _, h₂ ▸ pairVal_lt _ _, h₃ ▸ pairVal_lt _ _⟩
  · exact absurd h (by simp)

/-! ## Concrete evaluations -/

lemma hexToHSL_6366f1 : hexToHSL "#6366f1" = some ⟨239, 84, 67⟩ := by
  have hp : parseHex "#6366f1" = some (99, 102, 241) := by decide
  rw [hexToHSL, hp]
  show some (hslOfBytes 99 102 241) = _
  rw [hslOfBytes]
  norm_num [hueFrac, satFrac, min_def, max_def]
  refine ⟨?_, ?_, ?_⟩
  · exact round_eq_of _ _ (by norm_num) (by norm_num)
  · exact round_eq_of _ _ (by norm_num) (by norm_num)
  · exact round_eq_of _ _ (by norm_num) (by norm_num)

lemma hexToHSL_ff0001 : hexToHSL "#ff0001" = some ⟨360, 100, 50⟩ := by
  have hp : parseHex "#ff0001" = some (255, 0, 1) := by decide
  rw [hexToHSL, hp]
  show some (hslOfBytes 255 0 1) = _
  rw [hslOfBytes]
  norm_num [hueFrac, satFrac, min_def, max_def]
  exact round_eq_of _ _ (by norm_num) (by norm_num)

/-! ## C1: the worked example of the spec -/

/-- C1: the claim that `hexToHSL('#6366f1')` returns `{h: 239, s: 89, l: 64}`
is false: the saturation and lightness components differ. -/
theorem C1_cex : ¬ hexToHSL "#6366f1" = some ⟨239, 89, 64⟩ := by
  rw [hexToHSL_6366f1]
  intro h
  simp only [Option.some.injEq, HSL.mk.injEq] at h
  exact absurd h.2.1 (by decide)

/-- C1 (amended): `hexToHSL('#6366f1')` returns the HSL record with
`h = 239`, `s = 84` and `l = 67` (all components rounded to integers). -/
theorem C1_thm : hexToHSL "#6366f1" = some ⟨239, 84, 67⟩ := hexToHSL_6366f1

/-! ## C4: range of the hue component -/

/-- C4: the claim that the hue always lies in `[0, 360)` is false:
`'#ff0001'` is a valid hex color whose hue rounds to exactly 360
(the code applies no wrapping after `Math.round(h * 360)`). -/
theorem C4_cex :
    isValidHex "#ff0001" = true ∧ (hexToHSL "#ff0001").map HSL.h = some 360 := by
  exact ⟨by decide, by rw [hexToHSL_ff0001]; rfl⟩

lemma round_mul_100_mem {x : ℚ} (h0 : 0 ≤ x) (h1 : x ≤ 1) :
    0 ≤ round (x * 100) ∧ round (x * 100) ≤ 100 :=
  ⟨round_nonneg (by positivity), round_le_of_le (by push_cast; linarith)⟩

lemma round_mul_360_mem {x : ℚ} (h0 : 0 ≤ x) (h1 : x ≤ 1) :
    0 ≤ round (x * 360) ∧ round (x * 360) ≤ 360 :=
  ⟨round_nonneg (by positivity), round_le_of_le (by push_cast; linarith)⟩

lemma hslOfBytes_l_range (rn gn bn : ℕ) (hrn : rn < 256) (hgn : gn < 256) (hbn : bn < 256) :
    0 ≤ (hslOfBytes rn gn bn).l ∧ (hslOfBytes rn gn bn).l ≤ 100 := by
  have hr0 : (0:ℚ) ≤ (rn:ℚ)/255 := by positivity
  have hg0 : (0:ℚ) ≤ (gn:ℚ)/255 := by positivity
  have hb0 : (0:ℚ) ≤ (bn:ℚ)/255 := by positivity
  have hr1 : (rn:ℚ)/255 ≤ 1 := by
    rw [div_le_one (by norm_num)]
    exact_mod_cast Nat.le_of_lt_succ hrn
  have hg1 : (gn:ℚ)/255 ≤ 1 := by
    rw [div_le_one (by norm_num)]
    exact_mod_cast Nat.le_of_lt_succ hgn
  have hb1 : (bn:ℚ)/255 ≤ 1 := by
    rw [div_le_one (by norm_num)]
    exact_mod_cast Nat.le_of_lt_succ hbn
  unfold hslOfBytes
  dsimp only
  set r : ℚ := (rn:ℚ)/255 with hrdef
  set g : ℚ := (gn:ℚ)/255 with hgdef
  set b : ℚ := (bn:ℚ)/255 with hbdef
  have hmx1 : max r (max g b) ≤ 1 := max_le hr1 (max_le hg1 hb1)
  have hmn0 : 0 ≤ min r (min g b) := le_min hr0 (le_min hg0 hb0)
  have hmnmx : min r (min g b) ≤ max r (max g b) :=
    (min_le_left _ _).trans (le_max_left _ _)
  split_ifs with c1 <;>
    exact round_mul_100_mem (by positivity) (by rw [div_le_one (by norm_num)]; linarith)



lemma hueFrac_mem (r g b : ℚ) (hr0 : 0 ≤ r) (hr1 : r ≤ 1) (hg0 : 0 ≤ g) (hg1 : g ≤ 1)
    (hb0 : 0 ≤ b) (hb1 : b ≤ 1) (hd : min r (min g b) < max r (max g b)) :
    0 ≤ hueFrac r g b ∧ hueFrac r g b < 1 := by
  have hrmx : r ≤ max r (max g b) := le_max_left _ _
  have hgmx : g ≤ max r (max g b) := (le_max_left g b).trans (le_max_right _ _)
  have hbmx : b ≤ max r (max g b) := (le_max_right g b).trans (le_max_right _ _)
  have hmnr : min r (min g b) ≤ r := min_le_left _ _
  have hmng : min r (min g b) ≤ g := (min_le_right r _).trans (min_le_left _ _)
  have hmnb : min r (min g b) ≤ b := (min_le_right r _).trans (min_le_right _ _)
  unfold hueFrac
  dsimp only
  split_ifs with c3 c4
  · have hq₁ : (-1:ℚ) ≤ (g - b) / (max r (max g b) - min r (min g b)) := by
      rw [le_div_iff₀ (by linarith)]
      linarith
    have hq₂ : (g - b) / (max r (max g b) - min r (min g b)) < 0 :=
      div_neg_of_neg_of_pos (by linarith) (by linarith)
    constructor <;> linarith
  · have hq₁ : (0:ℚ) ≤ (g - b) / (max r (max g b) - min r (min g b)) :=
      div_nonneg (by linarith [not_lt.mp c4]) (by linarith)
    have hq₂ : (g - b) / (max r (max g b) - min r (min g b)) ≤ 1 := by
      rw [div_le_iff₀ (by linarith)]
      linarith
    constructor <;> linarith
  · have hq₁ : (-1:ℚ) ≤ (b - r) / (max r (max g b) - min r (min g b)) := by
      rw [le_div_iff₀ (by linarith)]
      linarith
    have hq₂ : (b - r) / (max r (max g b) - min r (min g b)) ≤ 1 := by
      rw [div_le_iff₀ (by linarith)]
      linarith
    constructor <;> linarith
  · have hq₁ : (-1:ℚ) ≤ (r - g) / (max r (max g b) - min r (min g b)) := by
      rw [le_div_iff₀ (by linarith)]
      linarith
    have hq₂ : (r - g) / (max r (max g b) - min r (min g b)) ≤ 1 := by
      rw [div_le_iff₀ (by linarith)]
      linarith
    constructor <;> linarith

lemma satFrac_mem (r g b : ℚ) (hr0 : 0 ≤ r) (hr1 : r ≤ 1) (hg0 : 0 ≤ g) (hg1 : g ≤ 1)
    (hb0 : 0 ≤ b) (hb1 : b ≤ 1) (hd : min r (min g b) < max r (max g b)) :
    0 ≤ satFrac r g b ∧ satFrac r g b ≤ 1 := by
  have hmx1 : max r (max g b) ≤ 1 := max_le hr1 (max_le hg1 hb1)
  have hmn0 : 0 ≤ min r (min g b) := le_min hr0 (le_min hg0 hb0)
  unfold satFrac
  dsimp only
  split_ifs with c2
  · constructor
    · exact div_nonneg (by linarith) (by linarith)
    · rw [div_le_one (by linarith)]
      linarith
  · have hsum : 0 < max r (max g b) + min r (min g b) := by linarith
    constructor
    · exact div_nonneg (by linarith) (by linarith)
    · rw [div_le_one (by linarith)]
      linarith

lemma byte_frac_unit {kn : ℕ} (h : kn < 256) : 0 ≤ (kn:ℚ)/255 ∧ (kn:ℚ)/255 ≤ 1 := by
  constructor
  · positivity
  · rw [div_le_one (by norm_num)]
    exact_mod_cast Nat.le_of_lt_succ h

lemma hslOfBytes_s_range (rn gn bn : ℕ) (hrn : rn < 256) (hgn : gn < 256) (hbn : bn < 256) :
    0 ≤ (hslOfBytes rn gn bn).s ∧ (hslOfBytes rn gn bn).s ≤ 100 := by
  obtain ⟨hr0, hr1⟩ := byte_frac_unit hrn
  obtain ⟨hg0, hg1⟩ := byte_frac_unit hgn
  obtain ⟨hb0, hb1⟩ := byte_frac_unit hbn
  have hmnmx : min ((rn:ℚ)/255) (min ((gn:ℚ)/255) ((bn:ℚ)/255)) ≤
      max ((rn:ℚ)/255) (max ((gn:ℚ)/255) ((bn:ℚ)/255)) :=
    (min_le_left _ _).trans (le_max_left _ _)
  unfold hslOfBytes
  dsimp only
  rw [apply_ite HSL.s]
  dsimp only
  split_ifs with c1
  · norm_num
  · obtain ⟨h1, h2⟩ := satFrac_mem _ _ _ hr0 hr1 hg0 hg1 hb0 hb1 (hmnmx.lt_of_ne (Ne.symm c1))
    exact round_mul_100_mem h1 h2

lemma hslOfBytes_h_range (rn gn bn : ℕ) (hrn : rn < 256) (hgn : gn < 256) (hbn : bn < 256) :
    0 ≤ (hslOfBytes rn gn bn).h ∧ (hslOfBytes rn gn bn).h ≤ 360 := by
  obtain ⟨hr0, hr1⟩ := byte_frac_unit hrn
  obtain ⟨hg0, hg1⟩ := byte_frac_unit hgn
  obtain ⟨hb0, hb1⟩ := byte_frac_unit hbn
  have hmnmx : min ((rn:ℚ)/255) (min ((gn:ℚ)/255) ((bn:ℚ)/255)) ≤
      max ((rn:ℚ)/255) (max ((gn:ℚ)/255) ((bn:ℚ)/255)) :=
    (min_le_left _ _).trans (le_max_left _ _)
  unfold hslOfBytes
  dsimp only
  rw [apply_ite HSL.h]
  dsimp only
  split_ifs with c1
  · norm_num
  · obtain ⟨h1, h2⟩ := hueFrac_mem _ _ _ hr0 hr1 hg0 hg1 hb0 hb1 (hmnmx.lt_of_ne (Ne.symm c1))
    exact round_mul_360_mem h1 (le_of_lt h2)

lemma hexToHSL_some {hex : String} {rn gn bn : ℕ}
    (hp : parseHex hex = some (rn, gn, bn)) :
    hexToHSL hex = some (hslOfBytes rn gn bn) := by
  rw [hexToHSL, hp]

lemma hexToHSL_ranges {hex : String} {hsl : HSL} (h : hexToHSL hex = some hsl) :
    (0 ≤ hsl.h ∧ hsl.h ≤ 360) ∧ (0 ≤ hsl.s ∧ hsl.s ≤ 100) ∧ (0 ≤ hsl.l ∧ hsl.l ≤ 100) := by
  rw [hexToHSL] at h
  split at h
  · exact absurd h (by simp)
  · next rn gn bn heq =>
    obtain ⟨h1, h2, h3⟩ := parseHex_bytes_lt heq
    simp only [Option.some.injEq] at h
    subst h
    exact ⟨hslOfBytes_h_range rn gn bn h1 h2 h3, hslOfBytes_s_range rn gn bn h1 h2 h3,
      hslOfBytes_l_range rn gn bn h1 h2 h3⟩

/-- C4 (amended): for every valid hex input the hue returned by `hexToHSL`
lies in the closed interval `[0, 360]`: the sector value is divided by 6,
multiplied by 360 and rounded to nearest, but no wrapping is applied, so
the value 360 itself can be returned (e.g. for `'#ff0001'`). -/
theorem C4_thm {hex : String} {hsl : HSL} (h : hexToHSL hex = some hsl) :
    0 ≤ hsl.h ∧ hsl.h ≤ 360 :=
  (hexToHSL_ranges h).1

/-- Witness for C4: the amended hue-range theorem applied at `'#6366f1'`. -/
theorem C4_witness : 0 ≤ (239:ℤ) ∧ (239:ℤ) ≤ 360 :=
  C4_thm hexToHSL_6366f1

lemma isValidHex_iff_spec (s : String) : isValidHex s = true ↔ specValidHex s := by
  unfold isValidHex hexDigits specValidHex
  split
  · next rest heq =>
    split_ifs with hc
    · simp only [Option.isSome_some, true_iff]
      simp only [Bool.and_eq_true, beq_iff_eq, List.all_eq_true] at hc
      exact ⟨rest, Or.inr heq, hc.1, hc.2⟩
    · simp only [Option.isSome_none, Bool.false_eq_true, false_iff]
      rintro ⟨ds, hds, hlen, hall⟩
      simp only [Bool.and_eq_true, beq_iff_eq, List.all_eq_true] at hc
      rcases hds with hds | hds
      · rw [heq] at hds
        subst hds
        have := hall _ (List.mem_cons_self _ _)
        exact absurd this (by decide)
      · rw [heq] at hds
        simp only [List.cons.injEq] at hds
        exact hc ⟨hds.2 ▸ hlen, hds.2 ▸ hall⟩
  · next hnothash =>
    split_ifs with hc
    · simp only [Option.isSome_some, true_iff]
      simp only [Bool.and_eq_true, beq_iff_eq, List.all_eq_true] at hc
      exact ⟨s.data, Or.inl rfl, hc.1, hc.2⟩
    · simp only [Option.isSome_none, Bool.false_eq_true, false_iff]
      rintro ⟨ds, hds, hlen, hall⟩
      simp only [Bool.and_eq_true, beq_iff_eq, List.all_eq_true] at hc
      rcases hds with hds | hds
      · exact hc ⟨hds ▸ hlen, hds ▸ hall⟩
      · exact hnothash ds hds

/-- C8: `isValidHex` is true exactly for strings of the form `#RRGGBB` or
`RRGGBB` with six case-insensitive hex digits; in particular it accepts
`'#6366f1'` and `'6366f1'` and rejects `'#f00'`, the empty string and
`'#zzzzzz'`. -/
theorem C8_thm :
    (∀ s : String, isValidHex s = true ↔ specValidHex s) ∧
      isValidHex "#6366f1" = true ∧ isValidHex "6366f1" = true ∧
      isValidHex "#f00" = false ∧ isValidHex "" = false ∧
      isValidHex "#zzzzzz" = false :=
  ⟨isValidHex_iff_spec, by decide, by decide, by decide, by decide, by decide⟩

/-! ## Luminance and contrast -/

lemma adjustChannel_nonneg {c : ℝ} (h : 0 ≤ c) : 0 ≤ adjustChannel c := by
  unfold adjustChannel
  split_ifs with hc
  · positivity
  · positivity

lemma adjustChannel_le_one {c : ℝ} (h0 : 0 ≤ c) (h1 : c ≤ 1) : adjustChannel c ≤ 1 := by
  unfold adjustChannel
  split_ifs with hc
  · rw [div_le_one (by norm_num)]
    linarith
  · apply Real.rpow_le_one (by positivity) ?_ (by norm_num)
    rw [div_le_one (by norm_num)]
    linarith

lemma parseHex_valid {s : String} {t : ℕ × ℕ × ℕ} (h : parseHex s = some t) :
    isValidHex s = true :=
  isValidHex_iff_parseHex.mpr ⟨t, h⟩

lemma getLuminance_invalid {s : String} (h : isValidHex s = false) : getLuminance s = 0 := by
  rw [getLuminance]
  split
  · rfl
  · next rn gn bn heq =>
    rw [parseHex_valid heq] at h
    exact absurd h (by simp)

lemma getLuminance_mem (s : String) : 0 ≤ getLuminance s ∧ getLuminance s ≤ 1 := by
  rw [getLuminance]
  split
  · norm_num
  · next rn gn bn heq =>
    obtain ⟨h1, h2, h3⟩ := parseHex_bytes_lt heq
    have b1 : (0:ℝ) ≤ (rn:ℝ)/255 := by positivity
    have b2 : (0:ℝ) ≤ (gn:ℝ)/255 := by positivity
    have b3 : (0:ℝ) ≤ (bn:ℝ)/255 := by positivity
    have c1 : (rn:ℝ)/255 ≤ 1 := by
      rw [div_le_one (by norm_num)]
      exact_mod_cast Nat.le_of_lt_succ h1
    have c2 : (gn:ℝ)/255 ≤ 1 := by
      rw [div_le_one (by norm_num)]
      exact_mod_cast Nat.le_of_lt_succ h2
    have c3 : (bn:ℝ)/255 ≤ 1 := by
      rw [div_le_one (by norm_num)]
      exact_mod_cast Nat.le_of_lt_succ h3
    have := adjustChannel_nonneg b1
    have := adjustChannel_nonneg b2
    have := adjustChannel_nonneg b3
    have := adjustChannel_le_one b1 c1
    have := adjustChannel_le_one b2 c2
    have := adjustChannel_le_one b3 c3
    constructor <;> nlinarith

lemma getContrastRatio_symm (A B : String) :
    getContrastRatio A B = getContrastRatio B A := by
  rw [getContrastRatio, getContrastRatio, max_comm, min_comm]

lemma getContrastRatio_mem (A B : String) :
    1 ≤ getContrastRatio A B ∧ getContrastRatio A B ≤ 21 := by
  obtain ⟨hA0, hA1⟩ := getLuminance_mem A
  obtain ⟨hB0, hB1⟩ := getLuminance_mem B
  rw [getContrastRatio]
  have hmin0 : 0 ≤ min (getLuminance A) (getLuminance B) := le_min hA0 hB0
  have hmax1 : max (getLuminance A) (getLuminance B) ≤ 1 := max_le hA1 hB1
  have hmm : min (getLuminance A) (getLuminance B) ≤ max (getLuminance A) (getLuminance B) :=
    min_le_max
  constructor
  · rw [le_div_iff₀ (by linarith)]
    linarith
  · rw [div_le_iff₀ (by linarith)]
    linarith



lemma lum_black : getLuminance "#010101" = 5/16473 := by
  have hp : parseHex "#010101" = some (1, 1, 1) := by decide
  rw [getLuminance, hp]
  dsimp only
  have ha : adjustChannel ((1:ℕ)/255 : ℝ) = (1/255)/12.92 := by
    rw [adjustChannel, if_pos (by norm_num)]
    norm_num
  rw [ha]
  norm_num

lemma lum_white : getLuminance "#FFFFFF" = 1 := by
  have hp : parseHex "#FFFFFF" = some (255, 255, 255) := by decide
  rw [getLuminance, hp]
  dsimp only
  have ha : adjustChannel ((255:ℕ)/255 : ℝ) = 1 := by
    rw [adjustChannel, if_neg (by norm_num)]
    rw [show (((255:ℕ):ℝ)/255 + 0.055)/1.055 = 1 by norm_num, Real.one_rpow]
  rw [ha]
  norm_num

lemma invalid_ratios {s : String} (h : isValidHex s = false) :
    getContrastRatio "#FFFFFF" s = 21 ∧ getContrastRatio "#010101" s = 16573/16473 := by
  have h0 := getLuminance_invalid h
  constructor
  · rw [getContrastRatio, lum_white, h0]
    norm_num
  · rw [getContrastRatio, lum_black, h0]
    norm_num

lemma invalid_ctc {s : String} (h : isValidHex s = false) :
    getContrastTextColor s = "#FFFFFF" := by
  obtain ⟨hW, hB⟩ := invalid_ratios h
  rw [getContrastTextColor]
  rw [hW, hB]
  norm_num

/-- C5: for every pair of valid hex strings the contrast ratio is
symmetric and lies in the closed interval `[1, 21]`. -/
theorem C5_thm (A B : String) (hA : isValidHex A = true) (hB : isValidHex B = true) :
    getContrastRatio A B = getContrastRatio B A ∧
      1 ≤ getContrastRatio A B ∧ getContrastRatio A B ≤ 21 :=
  ⟨getContrastRatio_symm A B, (getContrastRatio_mem A B).1, (getContrastRatio_mem A B).2⟩

/-- Witness for C5 at the pair `('#010101', '#FFFFFF')`. -/
theorem C5_witness :
    getContrastRatio "#010101" "#FFFFFF" = getContrastRatio "#FFFFFF" "#010101" ∧
      1 ≤ getContrastRatio "#010101" "#FFFFFF" ∧ getContrastRatio "#010101" "#FFFFFF" ≤ 21 :=
  C5_thm _ _ (by decide) (by decide)

/-- C2: the claim that `getContrastTextColor` fails with an
`InvalidColorError` on every non-hex input is false: on the invalid input
`"xyz"` it returns the text color `'#FFFFFF'` normally (the luminance
helper silently maps invalid input to 0 instead of throwing). -/
theorem C2_cex : isValidHex "xyz" = false ∧ getContrastTextColor "xyz" = "#FFFFFF" :=
  ⟨by decide, invalid_ctc (by decide)⟩

/-- C2 (amended): `getContrastTextColor` never fails: for every input
string that does not match the 6-digit hex pattern it returns `'#FFFFFF'`
(no error propagates, because `getLuminance` returns 0 for invalid hex). -/
theorem C2_thm (s : String) (h : isValidHex s = false) :
    getContrastTextColor s = "#FFFFFF" :=
  invalid_ctc h

/-- Witness for C2 at the invalid input `"##"`. -/
theorem C2_witness : getContrastTextColor "##" = "#FFFFFF" :=
  C2_thm "##" (by decide)

/-- C9: `getContrastTextColor` is total: for every input failing the hex
pattern the internal luminance is 0, the white contrast ratio is exactly
21, the black ratio is about 1.006 (within `[1.006, 1.007]`), and the
function returns `'#FFFFFF'` without error. -/
theorem C9_thm (s : String) (h : isValidHex s = false) :
    getContrastTextColor s = "#FFFFFF" ∧ getContrastRatio "#FFFFFF" s = 21 ∧
      1.006 ≤ getContrastRatio "#010101" s ∧ getContrastRatio "#010101" s ≤ 1.007 := by
  obtain ⟨hW, hB⟩ := invalid_ratios h
  refine ⟨invalid_ctc h, hW, ?_, ?_⟩ <;> rw [hB] <;> norm_num

/-- Witness for C9 at the invalid input `"nope"`. -/
theorem C9_witness :
    getContrastTextColor "nope" = "#FFFFFF" ∧ getContrastRatio "#FFFFFF" "nope" = 21 ∧
      1.006 ≤ getContrastRatio "#010101" "nope" ∧ getContrastRatio "#010101" "nope" ≤ 1.007 :=
  C9_thm "nope" (by decide)

lemma rpow_24_bracket (x lo hi : ℝ) (hx : 0 ≤ x) (hlo : 0 ≤ lo) (hhi : 0 ≤ hi)
    (h1 : lo^5 ≤ x^12) (h2 : x^12 ≤ hi^5) : lo ≤ x ^ (2.4:ℝ) ∧ x ^ (2.4:ℝ) ≤ hi := by
  have key : (x ^ (2.4:ℝ)) ^ (5:ℕ) = x ^ (12:ℕ) := by
    rw [← Real.rpow_natCast (x ^ (2.4:ℝ)) 5, ← Real.rpow_mul hx]
    rw [show ((2.4:ℝ) * (5:ℕ)) = ((12:ℕ):ℝ) by norm_num, Real.rpow_natCast]
  constructor
  · have h1' : lo ^ (5:ℕ) ≤ (x ^ (2.4:ℝ)) ^ (5:ℕ) := by rw [key]; exact h1
    exact le_of_pow_le_pow_left₀ (by norm_num) (Real.rpow_nonneg hx _) h1'
  · have h2' : (x ^ (2.4:ℝ)) ^ (5:ℕ) ≤ hi ^ (5:ℕ) := by rw [key]; exact h2
    exact le_of_pow_le_pow_left₀ (by norm_num) hhi h2'

lemma lum_767676 : 9/50 ≤ getLuminance "#767676" ∧ getLuminance "#767676" ≤ 11/60 := by
  have hp : parseHex "#767676" = some (118, 118, 118) := by decide
  rw [getLuminance, hp]
  dsimp only
  have ha : adjustChannel ((118:ℕ)/255 : ℝ) = ((5281:ℝ)/10761) ^ (2.4:ℝ) := by
    rw [adjustChannel, if_neg (by norm_num)]
    norm_num
  rw [ha]
  have hb := rpow_24_bracket ((5281:ℝ)/10761) (9/50) (11/60)
    (by norm_num) (by norm_num) (by norm_num) (by norm_num) (by norm_num)
  constructor <;> nlinarith [hb.1, hb.2]



lemma ratios_767676 :
    4.5 ≤ getContrastRatio "#010101" "#767676" ∧
    4.5 ≤ getContrastRatio "#FFFFFF" "#767676" ∧
    getContrastRatio "#FFFFFF" "#767676" ≤ getContrastRatio "#010101" "#767676" := by
  obtain ⟨hL1, hL2⟩ := lum_767676
  set L := getLuminance "#767676" with hLdef
  have hB : getContrastRatio "#010101" "#767676" = (L + 0.05) / (5/16473 + 0.05) := by
    rw [getContrastRatio, lum_black]
    rw [max_eq_right (by nlinarith), min_eq_left (by nlinarith)]
  have hW : getContrastRatio "#FFFFFF" "#767676" = (1 + 0.05) / (L + 0.05) := by
    rw [getContrastRatio, lum_white]
    rw [max_eq_left (by nlinarith), min_eq_right (by nlinarith)]
  refine ⟨?_, ?_, ?_⟩
  · rw [hB, le_div_iff₀ (by norm_num)]
    nlinarith
  · rw [hW, le_div_iff₀ (by nlinarith)]
    nlinarith
  · rw [hB, hW, div_le_div_iff (by nlinarith) (by norm_num)]
    nlinarith

/-- C6: on every valid background where black and white both reach the 4.5
threshold — and likewise when neither does — `getContrastTextColor`
returns the color with the higher contrast ratio, black winning exact
ties (the source tests `ratioBlack >= ratioWhite`). -/
theorem C6_thm (B : String) (hv : isValidHex B = true)
    (hcase :
      (4.5 ≤ getContrastRatio "#010101" B ∧ 4.5 ≤ getContrastRatio "#FFFFFF" B) ∨
      (getContrastRatio "#010101" B < 4.5 ∧ getContrastRatio "#FFFFFF" B < 4.5)) :
    (getContrastRatio "#FFFFFF" B ≤ getContrastRatio "#010101" B →
        getContrastTextColor B = "#010101") ∧
    (getContrastRatio "#010101" B < getContrastRatio "#FFFFFF" B →
        getContrastTextColor B = "#FFFFFF") := by
  rw [getContrastTextColor]
  rcases hcase with ⟨h1, h2⟩ | ⟨h1, h2⟩
  · rw [if_pos ⟨h1, h2⟩]
    constructor
    · intro hle
      rw [if_pos hle]
    · intro hlt
      rw [if_neg (not_le.mpr hlt)]
  · rw [if_neg (fun hc => absurd hc.1 (not_le.mpr h1)),
      if_neg (not_le.mpr h1), if_neg (not_le.mpr h2)]
    constructor
    · intro hle
      rw [if_pos hle]
    · intro hlt
      rw [if_neg (not_le.mpr hlt)]

/-- Witness for C6 at the background `'#767676'`, where both ratios exceed
4.5 and black has the (weakly) higher ratio. -/
theorem C6_witness : getContrastTextColor "#767676" = "#010101" :=
  (C6_thm "#767676" (by decide) (Or.inl ⟨ratios_767676.1, ratios_767676.2.1⟩)).1
    ratios_767676.2.2

set_option maxRecDepth 4000 in
lemma byteHexOK_all : ∀ m : Fin 256, byteHexOK m = true := by decide

lemma byteHex_parse {B : ℤ} (h0 : 0 ≤ B) (h1 : B ≤ 255) :
    ∃ c₁ c₂, (byteHex B).data = [c₁, c₂] ∧ isHexDigitChar c₁ = true ∧
      isHexDigitChar c₂ = true ∧ pairVal c₁ c₂ = B.toNat := by
  have hm : ((B.toNat : ℕ) : ℤ) = B := Int.toNat_of_nonneg h0
  have hlt : B.toNat < 256 := by omega
  have hok := byteHexOK_all ⟨B.toNat, hlt⟩
  rw [byteHexOK] at hok
  rw [show (((⟨B.toNat, hlt⟩ : Fin 256) : ℕ) : ℤ) = B from hm] at hok
  split at hok
  · next c₁ c₂ heq =>
    simp only [Bool.and_eq_true, beq_iff_eq] at hok
    exact ⟨c₁, c₂, heq, hok.1.1, hok.1.2, by rw [hok.2]⟩
  · exact absurd hok (by simp)



lemma gval_mem (k : ℚ) : -1 ≤ gval k ∧ gval k ≤ 1 :=
  ⟨le_max_right _ _,
    max_le ((min_le_right _ _).trans (min_le_right _ _)) (by norm_num)⟩

lemma aval_mem {s l : ℚ} (hs0 : 0 ≤ s) (hs1 : s ≤ 100) (hl0 : 0 ≤ l) (hl1 : l ≤ 100) :
    0 ≤ s / 100 * min (l / 100) (1 - l / 100) ∧
      s / 100 * min (l / 100) (1 - l / 100) ≤ min (l / 100) (1 - l / 100) := by
  have hm0 : 0 ≤ min (l / 100) (1 - l / 100) := le_min (by linarith) (by linarith)
  constructor
  · exact mul_nonneg (by linarith) hm0
  · exact mul_le_of_le_one_left hm0 (by linarith)

lemma hslColor_bracket (h s l n : ℚ)
    (hs0 : 0 ≤ s) (hs1 : s ≤ 100) (hl0 : 0 ≤ l) (hl1 : l ≤ 100) :
    l / 100 - s / 100 * min (l / 100) (1 - l / 100) ≤ hslColor h s l n ∧
      hslColor h s l n ≤ l / 100 + s / 100 * min (l / 100) (1 - l / 100) := by
  obtain ⟨ha0, _⟩ := aval_mem hs0 hs1 hl0 hl1
  obtain ⟨hg1, hg2⟩ := gval_mem (jsMod (n + h / 30) 12)
  rw [hslColor]
  constructor <;> nlinarith

lemma hslColor_mem (h s l n : ℚ)
    (hs0 : 0 ≤ s) (hs1 : s ≤ 100) (hl0 : 0 ≤ l) (hl1 : l ≤ 100) :
    0 ≤ hslColor h s l n ∧ hslColor h s l n ≤ 1 := by
  obtain ⟨hb1, hb2⟩ := hslColor_bracket h s l n hs0 hs1 hl0 hl1
  obtain ⟨_, ha1⟩ := aval_mem hs0 hs1 hl0 hl1
  have h1 : min (l / 100) (1 - l / 100) ≤ l / 100 := min_le_left _ _
  have h2 : min (l / 100) (1 - l / 100) ≤ 1 - l / 100 := min_le_right _ _
  constructor <;> linarith

lemma hslByte_mem {h s l : ℚ} (n : ℚ)
    (hs0 : 0 ≤ s) (hs1 : s ≤ 100) (hl0 : 0 ≤ l) (hl1 : l ≤ 100) :
    0 ≤ hslByte h s l n ∧ hslByte h s l n ≤ 255 := by
  obtain ⟨hc0, hc1⟩ := hslColor_mem h s l n hs0 hs1 hl0 hl1
  rw [hslByte]
  exact ⟨round_nonneg (by linarith), round_le_of_le (by push_cast; linarith)⟩

lemma hslToHex_data (h s l : ℚ) :
    (hslToHex h s l).data =
      '#' :: ((byteHex (hslByte h s l 0)).data ++ (byteHex (hslByte h s l 8)).data ++
        (byteHex (hslByte h s l 4)).data) := by
  rw [hslToHex]
  simp [String.data_append]

lemma hslToHex_parse {h s l : ℚ}
    (hs0 : 0 ≤ s) (hs1 : s ≤ 100) (hl0 : 0 ≤ l) (hl1 : l ≤ 100) :
    parseHex (hslToHex h s l) =
      some ((hslByte h s l 0).toNat, (hslByte h s l 8).toNat, (hslByte h s l 4).toNat) := by
  obtain ⟨h00, h01⟩ := hslByte_mem (h := h) (s := s) (l := l) 0 hs0 hs1 hl0 hl1
  obtain ⟨h80, h81⟩ := hslByte_mem (h := h) (s := s) (l := l) 8 hs0 hs1 hl0 hl1
  obtain ⟨h40, h41⟩ := hslByte_mem (h := h) (s := s) (l := l) 4 hs0 hs1 hl0 hl1
  obtain ⟨c₁, c₂, hd0, hx1, hx2, hp0⟩ := byteHex_parse h00 h01
  obtain ⟨c₃, c₄, hd8, hx3, hx4, hp8⟩ := byteHex_parse h80 h81
  obtain ⟨c₅, c₆, hd4, hx5, hx6, hp4⟩ := byteHex_parse h40 h41
  have hdata : (hslToHex h s l).data = '#' :: [c₁, c₂, c₃, c₄, c₅, c₆] := by
    rw [hslToHex_data, hd0, hd8, hd4]
    rfl
  have hdig : hexDigits (hslToHex h s l) = some [c₁, c₂, c₃, c₄, c₅, c₆] := by
    rw [hexDigits, hdata]
    split
    · next rest heq =>
      simp only [List.cons.injEq] at heq
      rw [if_pos]
      · rw [heq.2]
      · rw [← heq.2]
        simp [hx1, hx2, hx3, hx4, hx5, hx6]
    · next hno => exact absurd rfl (hno [c₁, c₂, c₃, c₄, c₅, c₆])
  rw [parseHex, hdig]
  dsimp only
  rw [hp0, hp8, hp4]



/-- C10: for `h ∈ [0,360]`, `s, l ∈ [0,100]`, every channel computed by
`hslToHex` lies in `[0,1]`, every rounded byte lies in `0–255`, each byte
is formatted as exactly two hex digits, and the 7-character result with
its leading `#` satisfies `isValidHex`. -/
theorem C10_thm (h s l : ℚ) (hh0 : 0 ≤ h) (hh1 : h ≤ 360) (hs0 : 0 ≤ s) (hs1 : s ≤ 100)
    (hl0 : 0 ≤ l) (hl1 : l ≤ 100) :
    (∀ n : ℚ, 0 ≤ hslColor h s l n ∧ hslColor h s l n ≤ 1) ∧
    (∀ n : ℚ, 0 ≤ hslByte h s l n ∧ hslByte h s l n ≤ 255) ∧
    (∀ n : ℚ, (byteHex (hslByte h s l n)).data.length = 2) ∧
    (hslToHex h s l).data.head? = some '#' ∧
    (hslToHex h s l).length = 7 ∧
    isValidHex (hslToHex h s l) = true := by
  refine ⟨fun n => hslColor_mem h s l n hs0 hs1 hl0 hl1,
    fun n => hslByte_mem (h := h) n hs0 hs1 hl0 hl1, ?_, ?_, ?_, ?_⟩
  · intro n
    obtain ⟨hb0, hb1⟩ := hslByte_mem (h := h) n hs0 hs1 hl0 hl1
    obtain ⟨c₁, c₂, hd, -, -, -⟩ := byteHex_parse hb0 hb1
    rw [hd]
    rfl
  · rw [hslToHex_data]
    rfl
  · obtain ⟨h00, h01⟩ := hslByte_mem (h := h) (s := s) (l := l) 0 hs0 hs1 hl0 hl1
    obtain ⟨h80, h81⟩ := hslByte_mem (h := h) (s := s) (l := l) 8 hs0 hs1 hl0 hl1
    obtain ⟨h40, h41⟩ := hslByte_mem (h := h) (s := s) (l := l) 4 hs0 hs1 hl0 hl1
    obtain ⟨c₁, c₂, hd0, -, -, -⟩ := byteHex_parse h00 h01
    obtain ⟨c₃, c₄, hd8, -, -, -⟩ := byteHex_parse h80 h81
    obtain ⟨c₅, c₆, hd4, -, -, -⟩ := byteHex_parse h40 h41
    show (hslToHex h s l).data.length = 7
    rw [hslToHex_data, hd0, hd8, hd4]
    rfl
  · exact isValidHex_iff_parseHex.mpr ⟨_, hslToHex_parse hs0 hs1 hl0 hl1⟩

/-- Witness for C10 at `(h, s, l) = (239, 84, 92)`. -/
theorem C10_witness :
    (∀ n : ℚ, 0 ≤ hslColor 239 84 92 n ∧ hslColor 239 84 92 n ≤ 1) ∧
    (∀ n : ℚ, 0 ≤ hslByte 239 84 92 n ∧ hslByte 239 84 92 n ≤ 255) ∧
    (∀ n : ℚ, (byteHex (hslByte 239 84 92 n)).data.length = 2) ∧
    (hslToHex 239 84 92).data.head? = some '#' ∧
    (hslToHex 239 84 92).length = 7 ∧
    isValidHex (hslToHex 239 84 92) = true :=
  C10_thm 239 84 92 (by norm_num) (by norm_num) (by norm_num) (by norm_num)
    (by norm_num) (by norm_num)

/-! ## jsMod and gval evaluation -/

lemma jsMod_eq_self {x : ℚ} (h0 : 0 ≤ x) (h1 : x < 12) : jsMod x 12 = x := by
  rw [jsMod]
  have hf : ⌊x / 12⌋ = 0 := by
    rw [Int.floor_eq_zero_iff]
    constructor
    · positivity
    · rw [div_lt_one (by norm_num)]
      linarith
  rw [hf]
  ring

lemma jsMod_eq_sub {x : ℚ} (h0 : 12 ≤ x) (h1 : x < 24) : jsMod x 12 = x - 12 := by
  rw [jsMod]
  have hf : ⌊x / 12⌋ = 1 := by
    rw [Int.floor_eq_iff]
    constructor
    · push_cast
      rw [le_div_iff₀ (by norm_num)]
      linarith
    · push_cast
      rw [div_lt_iff₀ (by norm_num)]
      linarith
  rw [hf]
  ring

lemma gval_low {k : ℚ} (h : k ≤ 2) : gval k = -1 :=
  max_eq_right ((min_le_left _ _).trans (by linarith))

lemma gval_high {k : ℚ} (h : 10 ≤ k) : gval k = -1 :=
  max_eq_right (((min_le_right _ _).trans (min_le_left _ _)).trans (by linarith))

lemma gval_mid {k : ℚ} (h1 : 4 ≤ k) (h2 : k ≤ 8) : gval k = 1 := by
  rw [gval, min_eq_right (by linarith : (1:ℚ) ≤ 9 - k), min_eq_right (by linarith : (1:ℚ) ≤ k - 3)]
  exact max_eq_left (by norm_num)

lemma gval_rampup {k : ℚ} (h1 : 2 ≤ k) (h2 : k ≤ 4) : gval k = k - 3 := by
  rw [gval, min_eq_right (by linarith : (1:ℚ) ≤ 9 - k), min_eq_left (by linarith : k - 3 ≤ 1)]
  exact max_eq_left (by linarith)

lemma gval_rampdown {k : ℚ} (h1 : 8 ≤ k) (h2 : k ≤ 10) : gval k = 9 - k := by
  rw [gval, min_eq_left (by linarith : (9:ℚ) - k ≤ 1), min_eq_right (by linarith : 9 - k ≤ k - 3)]
  exact max_eq_left (by linarith)

lemma attain_neg (h : ℚ) (h0 : 0 ≤ h) (h1 : h ≤ 360) :
    gval (jsMod (0 + h / 30) 12) = -1 ∨ gval (jsMod (8 + h / 30) 12) = -1 ∨
      gval (jsMod (4 + h / 30) 12) = -1 := by
  have t0 : 0 ≤ h / 30 := by positivity
  have t1 : h / 30 ≤ 12 := by
    rw [div_le_iff₀ (by norm_num)]
    linarith
  rcases le_or_lt (h / 30) 2 with c1 | c1
  · exact Or.inl (by rw [jsMod_eq_self (by linarith) (by linarith)]; exact gval_low (by linarith))
  rcases lt_or_ge (h / 30) 4 with c2 | c2
  · exact Or.inr (Or.inl
      (by rw [jsMod_eq_self (by linarith) (by linarith)]; exact gval_high (by linarith)))
  rcases le_or_lt (h / 30) 6 with c3 | c3
  · exact Or.inr (Or.inl
      (by rw [jsMod_eq_sub (by linarith) (by linarith)]; exact gval_low (by linarith)))
  rcases lt_or_ge (h / 30) 8 with c4 | c4
  · exact Or.inr (Or.inr
      (by rw [jsMod_eq_self (by linarith) (by linarith)]; exact gval_high (by linarith)))
  rcases le_or_lt (h / 30) 10 with c5 | c5
  · exact Or.inr (Or.inr
      (by rw [jsMod_eq_sub (by linarith) (by linarith)]; exact gval_low (by linarith)))
  rcases lt_or_ge (h / 30) 12 with c6 | c6
  · exact Or.inl (by rw [jsMod_eq_self (by linarith) (by linarith)]; exact gval_high (by linarith))
  · exact Or.inl (by rw [jsMod_eq_sub (by linarith) (by linarith)]; exact gval_low (by linarith))

lemma attain_pos (h : ℚ) (h0 : 0 ≤ h) (h1 : h ≤ 360) :
    gval (jsMod (0 + h / 30) 12) = 1 ∨ gval (jsMod (8 + h / 30) 12) = 1 ∨
      gval (jsMod (4 + h / 30) 12) = 1 := by
  have t0 : 0 ≤ h / 30 := by positivity
  have t1 : h / 30 ≤ 12 := by
    rw [div_le_iff₀ (by norm_num)]
    linarith
  rcases le_or_lt (h / 30) 4 with c1 | c1
  · exact Or.inr (Or.inr
      (by rw [jsMod_eq_self (by linarith) (by linarith)]; exact gval_mid (by linarith) (by linarith)))
  rcases le_or_lt (h / 30) 8 with c2 | c2
  · exact Or.inl
      (by rw [jsMod_eq_self (by linarith) (by linarith)]; exact gval_mid (by linarith) (by linarith))
  · exact Or.inr (Or.inl
      (by rw [jsMod_eq_sub (by linarith) (by linarith)]; exact gval_mid (by linarith) (by linarith)))



lemma round_leq (x : ℚ) : (round x : ℚ) ≤ x + 1/2 := by
  rw [round_eq]
  exact Int.floor_le _

lemma round_gt (x : ℚ) : x - 1/2 < (round x : ℚ) := by
  rw [round_eq]
  have := Int.sub_one_lt_floor (x + 1/2)
  linarith

lemma hslColor_eq (h s l n : ℚ) :
    hslColor h s l n =
      l / 100 - s / 100 * min (l / 100) (1 - l / 100) * gval (jsMod (n + h / 30) 12) := rfl

lemma hslOfBytes_l_eq (rn gn bn : ℕ) :
    (hslOfBytes rn gn bn).l =
      round ((max ((rn:ℚ)/255) (max ((gn:ℚ)/255) ((bn:ℚ)/255)) +
        min ((rn:ℚ)/255) (min ((gn:ℚ)/255) ((bn:ℚ)/255))) / 2 * 100) := by
  unfold hslOfBytes
  dsimp only
  rw [apply_ite HSL.l]
  split_ifs <;> rfl

lemma max3_eq {a b c M : ℚ} (h1 : a ≤ M) (h2 : b ≤ M) (h3 : c ≤ M)
    (h : a = M ∨ b = M ∨ c = M) : max a (max b c) = M := by
  rcases h with h | h | h
  · exact le_antisymm (max_le h1 (max_le h2 h3)) (h ▸ le_max_left _ _)
  · exact le_antisymm (max_le h1 (max_le h2 h3)) (h ▸ (le_max_left b c).trans (le_max_right a _))
  · exact le_antisymm (max_le h1 (max_le h2 h3)) (h ▸ (le_max_right b c).trans (le_max_right a _))

lemma min3_eq {a b c m : ℚ} (h1 : m ≤ a) (h2 : m ≤ b) (h3 : m ≤ c)
    (h : a = m ∨ b = m ∨ c = m) : min a (min b c) = m := by
  rcases h with h | h | h
  · exact le_antisymm (h ▸ min_le_left _ _) (le_min h1 (le_min h2 h3))
  · exact le_antisymm (h ▸ (min_le_left b c).trans' (min_le_right a _)) (le_min h1 (le_min h2 h3))
  · exact le_antisymm (h ▸ (min_le_right b c).trans' (min_le_right a _)) (le_min h1 (le_min h2 h3))

lemma lightness_roundtrip (hq sq : ℚ) (L : ℤ) (hh0 : 0 ≤ hq) (hh1 : hq ≤ 360)
    (hs0 : 0 ≤ sq) (hs1 : sq ≤ 100) (hL0 : 0 ≤ L) (hL1 : L ≤ 100) :
    (hexToHSL (hslToHex hq sq (L:ℚ))).map HSL.l = some L := by
  have hl0 : (0:ℚ) ≤ (L:ℚ) := by exact_mod_cast hL0
  have hl1 : (L:ℚ) ≤ 100 := by exact_mod_cast hL1
  have hp := hslToHex_parse (h := hq) (s := sq) (l := (L:ℚ)) hs0 hs1 hl0 hl1
  rw [hexToHSL, hp]
  dsimp only
  rw [Option.map_some', Option.some.injEq, hslOfBytes_l_eq]
  set a : ℚ := sq / 100 * min ((L:ℚ) / 100) (1 - (L:ℚ) / 100) with hadef
  obtain ⟨ha0, ha1⟩ := aval_mem hs0 hs1 hl0 hl1
  set B0 := hslByte hq sq (L:ℚ) 0 with hB0def
  set B8 := hslByte hq sq (L:ℚ) 8 with hB8def
  set B4 := hslByte hq sq (L:ℚ) 4 with hB4def
  obtain ⟨h00, -⟩ := hslByte_mem (h := hq) (s := sq) (l := (L:ℚ)) 0 hs0 hs1 hl0 hl1
  obtain ⟨h80, -⟩ := hslByte_mem (h := hq) (s := sq) (l := (L:ℚ)) 8 hs0 hs1 hl0 hl1
  obtain ⟨h40, -⟩ := hslByte_mem (h := hq) (s := sq) (l := (L:ℚ)) 4 hs0 hs1 hl0 hl1
  set M := round (255 * ((L:ℚ)/100 + a)) with hMdef
  set m := round (255 * ((L:ℚ)/100 - a)) with hmdef
  -- every byte lies between m and M
  have hbr0 := hslColor_bracket hq sq (L:ℚ) 0 hs0 hs1 hl0 hl1
  have hbr8 := hslColor_bracket hq sq (L:ℚ) 8 hs0 hs1 hl0 hl1
  have hbr4 := hslColor_bracket hq sq (L:ℚ) 4 hs0 hs1 hl0 hl1
  have hb0M : B0 ≤ M := round_mono (by nlinarith [hbr0.2])
  have hb8M : B8 ≤ M := round_mono (by nlinarith [hbr8.2])
  have hb4M : B4 ≤ M := round_mono (by nlinarith [hbr4.2])
  have hmb0 : m ≤ B0 := round_mono (by nlinarith [hbr0.1])
  have hmb8 : m ≤ B8 := round_mono (by nlinarith [hbr8.1])
  have hmb4 : m ≤ B4 := round_mono (by nlinarith [hbr4.1])
  -- attainment of the extremes
  have hattM : B0 = M ∨ B8 = M ∨ B4 = M := by
    rcases attain_neg hq hh0 hh1 with hg | hg | hg
    · left
      rw [hB0def, hslByte, hslColor_eq, hg]
      exact congrArg round (by ring)
    · right; left
      rw [hB8def, hslByte, hslColor_eq, hg]
      exact congrArg round (by ring)
    · right; right
      rw [hB4def, hslByte, hslColor_eq, hg]
      exact congrArg round (by ring)
  have hattm : B0 = m ∨ B8 = m ∨ B4 = m := by
    rcases attain_pos hq hh0 hh1 with hg | hg | hg
    · left
      rw [hB0def, hslByte, hslColor_eq, hg]
      exact congrArg round (by ring)
    · right; left
      rw [hB8def, hslByte, hslColor_eq, hg]
      exact congrArg round (by ring)
    · right; right
      rw [hB4def, hslByte, hslColor_eq, hg]
      exact congrArg round (by ring)
  -- cast the byte values back to ℚ
  have e0 : ((B0.toNat : ℕ) : ℚ) = ((B0 : ℤ) : ℚ) := by
    exact_mod_cast congrArg (fun z : ℤ => (z : ℚ)) (Int.toNat_of_nonneg h00)
  have e8 : ((B8.toNat : ℕ) : ℚ) = ((B8 : ℤ) : ℚ) := by
    exact_mod_cast congrArg (fun z : ℤ => (z : ℚ)) (Int.toNat_of_nonneg h80)
  have e4 : ((B4.toNat : ℕ) : ℚ) = ((B4 : ℤ) : ℚ) := by
    exact_mod_cast congrArg (fun z : ℤ => (z : ℚ)) (Int.toNat_of_nonneg h40)
  rw [e0, e8, e4]
  have hmax : max ((B0:ℚ)/255) (max ((B8:ℚ)/255) ((B4:ℚ)/255)) = (M:ℚ)/255 := by
    apply max3_eq
    · have : (B0:ℚ) ≤ (M:ℚ) := by exact_mod_cast hb0M
      linarith
    · have : (B8:ℚ) ≤ (M:ℚ) := by exact_mod_cast hb8M
      linarith
    · have : (B4:ℚ) ≤ (M:ℚ) := by exact_mod_cast hb4M
      linarith
    · rcases hattM with h | h | h
      · exact Or.inl (by rw [h])
      · exact Or.inr (Or.inl (by rw [h]))
      · exact Or.inr (Or.inr (by rw [h]))
  have hmin : min ((B0:ℚ)/255) (min ((B8:ℚ)/255) ((B4:ℚ)/255)) = (m:ℚ)/255 := by
    apply min3_eq
    · have : (m:ℚ) ≤ (B0:ℚ) := by exact_mod_cast hmb0
      linarith
    · have : (m:ℚ) ≤ (B8:ℚ) := by exact_mod_cast hmb8
      linarith
    · have : (m:ℚ) ≤ (B4:ℚ) := by exact_mod_cast hmb4
      linarith
    · rcases hattm with h | h | h
      · exact Or.inl (by rw [h])
      · exact Or.inr (Or.inl (by rw [h]))
      · exact Or.inr (Or.inr (by rw [h]))
  rw [hmax, hmin]
  -- final rounding argument
  have hM1 : (M:ℚ) ≤ 255 * ((L:ℚ)/100 + a) + 1/2 := round_leq _
  have hM2 : 255 * ((L:ℚ)/100 + a) - 1/2 < (M:ℚ) := round_gt _
  have hm1 : (m:ℚ) ≤ 255 * ((L:ℚ)/100 - a) + 1/2 := round_leq _
  have hm2 : 255 * ((L:ℚ)/100 - a) - 1/2 < (m:ℚ) := round_gt _
  apply round_eq_of
  · linarith
  · linarith



/-- C3: for every valid primary hex `P`, `generateShadesFromPrimary P`
returns exactly 5 entries, and decomposing entry `i` with `hexToHSL`
yields lightness exactly `[92, 78, 64, 50, 36][i]`. -/
theorem C3_thm (P : String) (hv : isValidHex P = true) :
    ∃ shades, generateShadesFromPrimary P = some shades ∧ shades.length = 5 ∧
      shades.map (fun sh => (hexToHSL sh).map HSL.l) =
        [some 92, some 78, some 64, some 50, some 36] := by
  obtain ⟨⟨rn, gn, bn⟩, hp⟩ := isValidHex_iff_parseHex.mp hv
  have hx : hexToHSL P = some (hslOfBytes rn gn bn) := hexToHSL_some hp
  obtain ⟨⟨hh0, hh1⟩, ⟨hs0, hs1⟩, -⟩ := hexToHSL_ranges hx
  have hh0' : (0:ℚ) ≤ ((hslOfBytes rn gn bn).h : ℚ) := by exact_mod_cast hh0
  have hh1' : ((hslOfBytes rn gn bn).h : ℚ) ≤ 360 := by exact_mod_cast hh1
  have hs0' : (0:ℚ) ≤ ((hslOfBytes rn gn bn).s : ℚ) := by exact_mod_cast hs0
  have hs1' : ((hslOfBytes rn gn bn).s : ℚ) ≤ 100 := by exact_mod_cast hs1
  refine ⟨([92, 78, 64, 50, 36] : List ℚ).map
      (fun l => hslToHex ((hslOfBytes rn gn bn).h : ℚ) ((hslOfBytes rn gn bn).s : ℚ) l),
    by rw [generateShadesFromPrimary, hx], rfl, ?_⟩
  simp only [List.map_map, List.map_cons, List.map_nil, Function.comp]
  have hrt : ∀ L : ℤ, 0 ≤ L → L ≤ 100 →
      (hexToHSL (hslToHex ((hslOfBytes rn gn bn).h : ℚ) ((hslOfBytes rn gn bn).s : ℚ)
        (L:ℚ))).map HSL.l = some L := fun L a b =>
    lightness_roundtrip _ _ L hh0' hh1' hs0' hs1' a b
  have e92 := hrt 92 (by norm_num) (by norm_num)
  have e78 := hrt 78 (by norm_num) (by norm_num)
  have e64 := hrt 64 (by norm_num) (by norm_num)
  have e50 := hrt 50 (by norm_num) (by norm_num)
  have e36 := hrt 36 (by norm_num) (by norm_num)
  norm_num at e92 e78 e64 e50 e36 ⊢
  exact ⟨e92, e78, e64, e50, e36⟩

/-- Witness for C3 at the primary `'#6366f1'`. -/
theorem C3_witness :
    ∃ shades, generateShadesFromPrimary "#6366f1" = some shades ∧ shades.length = 5 ∧
      shades.map (fun sh => (hexToHSL sh).map HSL.l) =
        [some 92, some 78, some 64, some 50, some 36] :=
  C3_thm "#6366f1" (by decide)

lemma satFrac_a (r g b : ℚ) (hr1 : r ≤ 1) (hg1 : g ≤ 1) (hb1 : b ≤ 1)
    (hmn0 : 0 ≤ min r (min g b)) (hd : min r (min g b) < max r (max g b)) :
    satFrac r g b * min ((max r (max g b) + min r (min g b)) / 2)
      (1 - (max r (max g b) + min r (min g b)) / 2) =
      (max r (max g b) - min r (min g b)) / 2 := by
  have hmx1 : max r (max g b) ≤ 1 := max_le hr1 (max_le hg1 hb1)
  unfold satFrac
  dsimp only
  set M := max r (max g b) with hM
  set m := min r (min g b) with hm
  split_ifs with c2
  · rw [min_eq_right (show 1 - (M + m) / 2 ≤ (M + m) / 2 by linarith)]
    have h2 : (0:ℚ) < 2 - M - m := by linarith
    field_simp
    ring
  · rw [min_eq_left (show (M + m) / 2 ≤ 1 - (M + m) / 2 by linarith [not_lt.mp c2])]
    have hsum : (0:ℚ) < M + m := by linarith
    field_simp



set_option maxHeartbeats 1000000 in
lemma hsl_inversion (r g b : ℚ) (hr0 : 0 ≤ r) (hr1 : r ≤ 1) (hg0 : 0 ≤ g) (hg1 : g ≤ 1)
    (hb0 : 0 ≤ b) (hb1 : b ≤ 1) (hd : min r (min g b) < max r (max g b)) :
    hslColor (hueFrac r g b * 360) (satFrac r g b * 100)
        ((max r (max g b) + min r (min g b)) / 2 * 100) 0 = r ∧
    hslColor (hueFrac r g b * 360) (satFrac r g b * 100)
        ((max r (max g b) + min r (min g b)) / 2 * 100) 8 = g ∧
    hslColor (hueFrac r g b * 360) (satFrac r g b * 100)
        ((max r (max g b) + min r (min g b)) / 2 * 100) 4 = b := by
  have hmn0 : 0 ≤ min r (min g b) := le_min hr0 (le_min hg0 hb0)
  have hane := satFrac_a r g b hr1 hg1 hb1 hmn0 hd
  have hrmx : r ≤ max r (max g b) := le_max_left _ _
  have hgmx : g ≤ max r (max g b) := (le_max_left g b).trans (le_max_right _ _)
  have hbmx : b ≤ max r (max g b) := (le_max_right g b).trans (le_max_right _ _)
  have hmnr : min r (min g b) ≤ r := min_le_left _ _
  have hmng : min r (min g b) ≤ g := (min_le_right r _).trans (min_le_left _ _)
  have hmnb : min r (min g b) ≤ b := (min_le_right r _).trans (min_le_right _ _)
  have hd0 : (0:ℚ) < max r (max g b) - min r (min g b) := by linarith
  have key : ∀ n : ℚ, hslColor (hueFrac r g b * 360) (satFrac r g b * 100)
      ((max r (max g b) + min r (min g b)) / 2 * 100) n =
      (max r (max g b) + min r (min g b)) / 2 -
        (max r (max g b) - min r (min g b)) / 2 *
          gval (jsMod (n + hueFrac r g b * 12) 12) := by
    intro n
    rw [hslColor_eq]
    rw [show (max r (max g b) + min r (min g b)) / 2 * 100 / 100 =
      (max r (max g b) + min r (min g b)) / 2 by ring]
    rw [show satFrac r g b * 100 / 100 = satFrac r g b by ring]
    rw [show hueFrac r g b * 360 / 30 = hueFrac r g b * 12 by ring]
    rw [hane]
  by_cases hc3 : max r (max g b) = r
  · -- max = r
    have hFeq : hueFrac r g b =
        ((g - b) / (max r (max g b) - min r (min g b)) +
          (if g < b then (6:ℚ) else 0)) / 6 := by
      unfold hueFrac
      dsimp only
      rw [if_pos hc3]
    by_cases hc4 : g < b
    · -- g < b : t₀ = 2q + 12 ∈ [10,12)
      rw [if_pos hc4] at hFeq
      have hq₁ : (-1:ℚ) ≤ (g - b) / (max r (max g b) - min r (min g b)) := by
        rw [le_div_iff₀ hd0]
        linarith
      have hq₂ : (g - b) / (max r (max g b) - min r (min g b)) < 0 :=
        div_neg_of_neg_of_pos (by linarith) hd0
      have hmneq : min r (min g b) = g := by
        rw [min_eq_left hc4.le, min_eq_right (hc3 ▸ hgmx)]
      rw [hmneq] at hd0
      refine ⟨?_, ?_, ?_⟩
      · rw [key 0, hFeq, jsMod_eq_self (by linarith) (by linarith),
          gval_high (by linarith)]
        rw [hc3, hmneq]
        ring
      · rw [key 8, hFeq, jsMod_eq_sub (by linarith) (by linarith),
          gval_mid (by linarith) (by linarith)]
        rw [hc3, hmneq]
        ring
      · rw [key 4, hFeq, jsMod_eq_sub (by linarith) (by linarith),
          gval_rampup (by linarith) (by linarith)]
        rw [hc3, hmneq]
        have hne : r - g ≠ 0 := ne_of_gt (by linarith)
        field_simp [hne]
        ring
    · -- g ≥ b : t₀ = 2q ∈ [0,2]
      rw [if_neg hc4] at hFeq
      have hq₁ : (0:ℚ) ≤ (g - b) / (max r (max g b) - min r (min g b)) :=
        div_nonneg (by linarith [not_lt.mp hc4]) hd0.le
      have hq₂ : (g - b) / (max r (max g b) - min r (min g b)) ≤ 1 := by
        rw [div_le_iff₀ hd0]
        linarith
      have hmneq : min r (min g b) = b := by
        rw [min_eq_right (not_lt.mp hc4), min_eq_right (show b ≤ r by rw [← hc3]; exact hbmx)]
      refine ⟨?_, ?_, ?_⟩
      · rw [key 0, hFeq, jsMod_eq_self (by linarith) (by linarith),
          gval_low (by linarith)]
        rw [hc3, hmneq]
        ring
      · rw [key 8, hFeq, jsMod_eq_self (by linarith) (by linarith),
          gval_rampdown (by linarith) (by linarith)]
        rw [hc3, hmneq]
        have hne : r - b ≠ 0 := ne_of_gt (by linarith)
        field_simp [hne]
        ring
      · rw [key 4, hFeq, jsMod_eq_self (by linarith) (by linarith),
          gval_mid (by linarith) (by linarith)]
        rw [hc3, hmneq]
        ring
  · by_cases hc5 : max r (max g b) = g
    · -- max = g
      have hFeq : hueFrac r g b =
          ((b - r) / (max r (max g b) - min r (min g b)) + 2) / 6 := by
        unfold hueFrac
        dsimp only
        rw [if_neg hc3, if_pos hc5]
      have hq₁ : (-1:ℚ) ≤ (b - r) / (max r (max g b) - min r (min g b)) := by
        rw [le_div_iff₀ hd0]
        linarith
      have hq₂ : (b - r) / (max r (max g b) - min r (min g b)) ≤ 1 := by
        rw [div_le_iff₀ hd0]
        linarith
      rcases lt_or_ge b r with hbr | hbr
      · -- b < r : t₀ = 2q + 4 ∈ [2,4)
        have hq₃ : (b - r) / (max r (max g b) - min r (min g b)) < 0 :=
          div_neg_of_neg_of_pos (by linarith) hd0
        have hmneq : min r (min g b) = b := by
          rw [min_eq_right (show b ≤ g by rw [← hc5]; exact hbmx), min_eq_right hbr.le]
        refine ⟨?_, ?_, ?_⟩
        · rw [key 0, hFeq, jsMod_eq_self (by linarith) (by linarith),
            gval_rampup (by linarith) (by linarith)]
          rw [hc5, hmneq]
          have hne : g - b ≠ 0 := ne_of_gt (by linarith)
          field_simp [hne]
          ring
        · rw [key 8, hFeq, jsMod_eq_self (by linarith) (by linarith),
            gval_high (by linarith)]
          rw [hc5, hmneq]
          ring
        · rw [key 4, hFeq, jsMod_eq_self (by linarith) (by linarith),
            gval_mid (by linarith) (by linarith)]
          rw [hc5, hmneq]
          ring
      · -- b ≥ r : t₀ = 2q + 4 ∈ [4,6]
        have hq₃ : (0:ℚ) ≤ (b - r) / (max r (max g b) - min r (min g b)) :=
          div_nonneg (by linarith) hd0.le
        have hmneq : min r (min g b) = r := min_eq_left (le_min (show r ≤ g by rw [← hc5]; exact hrmx) hbr)
        refine ⟨?_, ?_, ?_⟩
        · rw [key 0, hFeq, jsMod_eq_self (by linarith) (by linarith),
            gval_mid (by linarith) (by linarith)]
          rw [hc5, hmneq]
          ring
        · rw [key 8, hFeq, jsMod_eq_sub (by linarith) (by linarith),
            gval_low (by linarith)]
          rw [hc5, hmneq]
          ring
        · rw [key 4, hFeq, jsMod_eq_self (by linarith) (by linarith),
            gval_rampdown (by linarith) (by linarith)]
          rw [hc5, hmneq]
          have hne : g - r ≠ 0 := ne_of_gt (by linarith)
          field_simp [hne]
          ring
    · -- max = b
      have hc6 : max r (max g b) = b := by
        rcases max_choice r (max g b) with h | h
        · exact absurd h hc3
        · rcases max_choice g b with h2 | h2
          · exact absurd (h.trans h2) hc5
          · exact h.trans h2
      have hFeq : hueFrac r g b =
          ((r - g) / (max r (max g b) - min r (min g b)) + 4) / 6 := by
        unfold hueFrac
        dsimp only
        rw [if_neg hc3, if_neg hc5]
      have hq₁ : (-1:ℚ) ≤ (r - g) / (max r (max g b) - min r (min g b)) := by
        rw [le_div_iff₀ hd0]
        linarith
      have hq₂ : (r - g) / (max r (max g b) - min r (min g b)) ≤ 1 := by
        rw [div_le_iff₀ hd0]
        linarith
      rcases lt_or_ge r g with hrg | hrg
      · -- r < g : t₀ = 2q + 8 ∈ [6,8)
        have hq₃ : (r - g) / (max r (max g b) - min r (min g b)) < 0 :=
          div_neg_of_neg_of_pos (by linarith) hd0
        have hmneq : min r (min g b) = r := min_eq_left (le_min hrg.le (show r ≤ b by rw [← hc6]; exact hrmx))
        refine ⟨?_, ?_, ?_⟩
        · rw [key 0, hFeq, jsMod_eq_self (by linarith) (by linarith),
            gval_mid (by linarith) (by linarith)]
          rw [hc6, hmneq]
          ring
        · rw [key 8, hFeq, jsMod_eq_sub (by linarith) (by linarith),
            gval_rampup (by linarith) (by linarith)]
          rw [hc6, hmneq]
          have hne : b - r ≠ 0 := ne_of_gt (by linarith)
          field_simp [hne]
          ring
        · rw [key 4, hFeq, jsMod_eq_self (by linarith) (by linarith),
            gval_high (by linarith)]
          rw [hc6, hmneq]
          ring
      · -- r ≥ g : t₀ = 2q + 8 ∈ [8,10]
        have hq₃ : (0:ℚ) ≤ (r - g) / (max r (max g b) - min r (min g b)) :=
          div_nonneg (by linarith) hd0.le
        have hmneq : min r (min g b) = g := by
          rw [min_eq_left (show g ≤ b by rw [← hc6]; exact hgmx), min_eq_right hrg]
        refine ⟨?_, ?_, ?_⟩
        · rw [key 0, hFeq, jsMod_eq_self (by linarith) (by linarith),
            gval_rampdown (by linarith) (by linarith)]
          rw [hc6, hmneq]
          have hne : b - g ≠ 0 := ne_of_gt (by linarith)
          field_simp [hne]
          ring
        · rw [key 8, hFeq, jsMod_eq_sub (by linarith) (by linarith),
            gval_mid (by linarith) (by linarith)]
          rw [hc6, hmneq]
          ring
        · rw [key 4, hFeq, jsMod_eq_sub (by linarith) (by linarith),
            gval_low (by linarith)]
          rw [hc6, hmneq]
          ring



lemma gval_lipschitz (k₁ k₂ : ℚ) : |gval k₁ - gval k₂| ≤ |k₁ - k₂| := by
  have h1 : |min (9 - k₁) 1 - min (9 - k₂) 1| ≤ |k₁ - k₂| := by
    refine (abs_min_sub_min_le_max _ _ _ _).trans (max_le ?_ ?_)
    · rw [show (9 - k₁) - (9 - k₂) = -(k₁ - k₂) by ring, abs_neg]
    · simp [abs_nonneg]
  have h2 : |min (k₁ - 3) (min (9 - k₁) 1) - min (k₂ - 3) (min (9 - k₂) 1)| ≤ |k₁ - k₂| := by
    refine (abs_min_sub_min_le_max _ _ _ _).trans (max_le ?_ h1)
    rw [show (k₁ - 3) - (k₂ - 3) = k₁ - k₂ by ring]
  refine (abs_max_sub_max_le_max _ _ _ _).trans (max_le h2 ?_)
  simp [abs_nonneg]

lemma jsMod_mem (x : ℚ) : 0 ≤ jsMod x 12 ∧ jsMod x 12 < 12 := by
  rw [jsMod]
  have h1 := Int.fract_nonneg (x / 12)
  have h2 := Int.fract_lt_one (x / 12)
  rw [Int.fract] at h1 h2
  constructor <;> nlinarith

lemma gval_jsMod_close_ord (x y : ℚ) (hxy : x ≤ y) (hclose : y - x ≤ 2) :
    |gval (jsMod x 12) - gval (jsMod y 12)| ≤ y - x := by
  have hfl : ⌊x / 12⌋ ≤ ⌊y / 12⌋ := Int.floor_le_floor (by linarith)
  rcases eq_or_lt_of_le hfl with heq | hlt
  · have e : jsMod x 12 - jsMod y 12 = x - y := by
      rw [jsMod, jsMod, ← heq]
      ring
    have := gval_lipschitz (jsMod x 12) (jsMod y 12)
    rw [e] at this
    refine this.trans ?_
    rw [abs_sub_comm, abs_of_nonneg (by linarith)]
  · have hx1 : (⌊x / 12⌋ : ℚ) + 1 ≤ (⌊y / 12⌋ : ℚ) := by exact_mod_cast hlt
    have hyfl : (⌊y / 12⌋ : ℚ) ≤ y / 12 := Int.floor_le _
    have hxfl : x / 12 < (⌊x / 12⌋ : ℚ) + 1 := Int.lt_floor_add_one _
    have hxhigh : 10 ≤ jsMod x 12 := by
      rw [jsMod]
      nlinarith
    have hylow : jsMod y 12 ≤ 2 := by
      rw [jsMod]
      nlinarith
    rw [gval_high hxhigh, gval_low hylow]
    simp
    linarith

lemma gval_jsMod_close (x y : ℚ) (h : |x - y| ≤ 2) :
    |gval (jsMod x 12) - gval (jsMod y 12)| ≤ |x - y| := by
  rcases le_total x y with hxy | hxy
  · have e : |x - y| = y - x := by
      rw [abs_sub_comm]
      exact abs_of_nonneg (by linarith)
    rw [e] at h ⊢
    exact gval_jsMod_close_ord x y hxy h
  · have e : |x - y| = x - y := abs_of_nonneg (by linarith)
    rw [e] at h ⊢
    rw [abs_sub_comm]
    exact gval_jsMod_close_ord y x hxy h



lemma min_half (x : ℚ) : min x (1 - x) ≤ 1/2 := by
  rcases le_total x (1/2) with h | h
  · exact (min_le_left _ _).trans h
  · exact (min_le_right _ _).trans (by linarith)

lemma hslColor_perturb (h₁ s₁ l₁ h₂ s₂ l₂ n : ℚ)
    (hhd : |h₁ - h₂| ≤ 1/2) (hsd : |s₁ - s₂| ≤ 1/2) (hld : |l₁ - l₂| ≤ 1/2)
    (hs₁0 : 0 ≤ s₁) (hs₁1 : s₁ ≤ 100) (hs₂0 : 0 ≤ s₂) (hs₂1 : s₂ ≤ 100)
    (hl₁0 : 0 ≤ l₁) (hl₁1 : l₁ ≤ 100) :
    |hslColor h₁ s₁ l₁ n - hslColor h₂ s₂ l₂ n| ≤ 1/48 := by
  rw [hslColor_eq, hslColor_eq]
  set m₁ := min (l₁/100) (1 - l₁/100) with hm₁def
  set m₂ := min (l₂/100) (1 - l₂/100) with hm₂def
  set G₁ := gval (jsMod (n + h₁/30) 12) with hG₁def
  set G₂ := gval (jsMod (n + h₂/30) 12) with hG₂def
  have hm₁0 : 0 ≤ m₁ := le_min (by linarith) (by linarith)
  have hm₁h : m₁ ≤ 1/2 := min_half _
  have habsl : |(l₁ - l₂)/100| ≤ 1/200 := by
    rw [abs_div, show |(100:ℚ)| = 100 by norm_num, div_le_iff₀ (by norm_num)]
    linarith
  have hmd : |m₁ - m₂| ≤ 1/200 := by
    have hstep : |m₁ - m₂| ≤ max |l₁/100 - l₂/100| |(1 - l₁/100) - (1 - l₂/100)| :=
      abs_min_sub_min_le_max _ _ _ _
    have e1 : |l₁/100 - l₂/100| ≤ 1/200 := by
      rw [show l₁/100 - l₂/100 = (l₁ - l₂)/100 by ring]
      exact habsl
    have e2 : |(1 - l₁/100) - (1 - l₂/100)| ≤ 1/200 := by
      rw [show (1 - l₁/100) - (1 - l₂/100) = -((l₁ - l₂)/100) by ring, abs_neg]
      exact habsl
    exact hstep.trans (max_le e1 e2)
  have hG₂1 : |G₂| ≤ 1 := by
    rw [hG₂def, abs_le]
    exact gval_mem _
  have hGd : |G₁ - G₂| ≤ 1/60 := by
    have harg : |(n + h₁/30) - (n + h₂/30)| ≤ 1/60 := by
      rw [show (n + h₁/30) - (n + h₂/30) = (h₁ - h₂)/30 by ring, abs_div,
        show |(30:ℚ)| = 30 by norm_num, div_le_iff₀ (by norm_num)]
      linarith
    exact (gval_jsMod_close _ _ (harg.trans (by norm_num))).trans harg
  have e : (l₁/100 - s₁/100 * m₁ * G₁) - (l₂/100 - s₂/100 * m₂ * G₂)
      = (l₁ - l₂)/100 - ((s₁/100 * m₁) * (G₁ - G₂)
        + ((s₁ - s₂)/100 * m₁ + s₂/100 * (m₁ - m₂)) * G₂) := by
    ring
  rw [e]
  have hP1 : |s₁/100 * m₁| ≤ 1/2 := by
    rw [abs_of_nonneg (by positivity)]
    nlinarith
  have t1 : |(s₁/100 * m₁) * (G₁ - G₂)| ≤ 1/120 := by
    rw [abs_mul]
    calc |s₁/100 * m₁| * |G₁ - G₂| ≤ (1/2) * (1/60) :=
          mul_le_mul hP1 hGd (abs_nonneg _) (by norm_num)
      _ = 1/120 := by norm_num
  have hq : |(s₁ - s₂)/100 * m₁| ≤ 1/400 := by
    rw [abs_mul, abs_of_nonneg hm₁0]
    have hA : |(s₁ - s₂)/100| ≤ 1/200 := by
      rw [abs_div, show |(100:ℚ)| = 100 by norm_num, div_le_iff₀ (by norm_num)]
      linarith
    calc |(s₁ - s₂)/100| * m₁ ≤ (1/200) * (1/2) :=
          mul_le_mul hA hm₁h hm₁0 (by norm_num)
      _ = 1/400 := by norm_num
  have hr : |s₂/100 * (m₁ - m₂)| ≤ 1/200 := by
    rw [abs_mul]
    have hA : |s₂/100| ≤ 1 := by
      rw [abs_of_nonneg (by positivity)]
      linarith
    calc |s₂/100| * |m₁ - m₂| ≤ 1 * (1/200) :=
          mul_le_mul hA hmd (abs_nonneg _) (by norm_num)
      _ = 1/200 := by norm_num
  have t3 : |((s₁ - s₂)/100 * m₁ + s₂/100 * (m₁ - m₂)) * G₂| ≤ 1/400 + 1/200 := by
    rw [abs_mul]
    calc |(s₁ - s₂)/100 * m₁ + s₂/100 * (m₁ - m₂)| * |G₂| ≤ (1/400 + 1/200) * 1 :=
          mul_le_mul ((abs_add _ _).trans (add_le_add hq hr)) hG₂1 (abs_nonneg _)
            (by norm_num)
      _ = 1/400 + 1/200 := by norm_num
  refine (abs_sub _ _).trans ?_
  have hsum : |(s₁/100 * m₁) * (G₁ - G₂)
      + ((s₁ - s₂)/100 * m₁ + s₂/100 * (m₁ - m₂)) * G₂| ≤ 1/120 + (1/400 + 1/200) :=
    (abs_add _ _).trans (add_le_add t1 t3)
  linarith



lemma roundtrip_byte_close (rn gn bn : ℕ) (hrn : rn < 256) (hgn : gn < 256) (hbn : bn < 256)
    (n : ℚ) (vn : ℕ)
    (hgray : max ((rn:ℚ)/255) (max ((gn:ℚ)/255) ((bn:ℚ)/255)) =
        min ((rn:ℚ)/255) (min ((gn:ℚ)/255) ((bn:ℚ)/255)) →
      (vn:ℚ)/255 = (max ((rn:ℚ)/255) (max ((gn:ℚ)/255) ((bn:ℚ)/255)) +
        min ((rn:ℚ)/255) (min ((gn:ℚ)/255) ((bn:ℚ)/255))) / 2)
    (hexact : ¬ max ((rn:ℚ)/255) (max ((gn:ℚ)/255) ((bn:ℚ)/255)) =
        min ((rn:ℚ)/255) (min ((gn:ℚ)/255) ((bn:ℚ)/255)) →
      hslColor (hueFrac ((rn:ℚ)/255) ((gn:ℚ)/255) ((bn:ℚ)/255) * 360)
        (satFrac ((rn:ℚ)/255) ((gn:ℚ)/255) ((bn:ℚ)/255) * 100)
        ((max ((rn:ℚ)/255) (max ((gn:ℚ)/255) ((bn:ℚ)/255)) +
          min ((rn:ℚ)/255) (min ((gn:ℚ)/255) ((bn:ℚ)/255))) / 2 * 100) n = (vn:ℚ)/255) :
    |hslByte ((hslOfBytes rn gn bn).h : ℚ) ((hslOfBytes rn gn bn).s : ℚ)
        ((hslOfBytes rn gn bn).l : ℚ) n - (vn:ℤ)| ≤ 5 := by
  obtain ⟨hr0, hr1⟩ := byte_frac_unit hrn
  obtain ⟨hg0, hg1⟩ := byte_frac_unit hgn
  obtain ⟨hb0, hb1⟩ := byte_frac_unit hbn
  by_cases hgr : max ((rn:ℚ)/255) (max ((gn:ℚ)/255) ((bn:ℚ)/255)) =
      min ((rn:ℚ)/255) (min ((gn:ℚ)/255) ((bn:ℚ)/255))
  · -- gray branch: hue and saturation are zero, only lightness is rounded
    have hhsl : hslOfBytes rn gn bn =
        ⟨0, 0, round ((max ((rn:ℚ)/255) (max ((gn:ℚ)/255) ((bn:ℚ)/255)) +
          min ((rn:ℚ)/255) (min ((gn:ℚ)/255) ((bn:ℚ)/255))) / 2 * 100)⟩ := by
      unfold hslOfBytes
      dsimp only
      rw [if_pos hgr]
    have hv := hgray hgr
    rw [hhsl]
    set lf : ℚ := (max ((rn:ℚ)/255) (max ((gn:ℚ)/255) ((bn:ℚ)/255)) +
      min ((rn:ℚ)/255) (min ((gn:ℚ)/255) ((bn:ℚ)/255))) / 2 with hlfdef
    show |hslByte ((0:ℤ):ℚ) ((0:ℤ):ℚ) ((round (lf * 100) : ℤ) : ℚ) n - (vn:ℤ)| ≤ 5
    have hcol : hslColor ((0:ℤ):ℚ) ((0:ℤ):ℚ) ((round (lf * 100) : ℤ) : ℚ) n =
        ((round (lf * 100) : ℤ) : ℚ) / 100 := by
      rw [hslColor_eq]
      push_cast
      ring
    have hlr : |((round (lf * 100) : ℤ) : ℚ) - lf * 100| ≤ 1/2 := round_close _
    have hB : |(hslByte ((0:ℤ):ℚ) ((0:ℤ):ℚ) ((round (lf * 100) : ℤ) : ℚ) n : ℚ) -
        255 * (((round (lf * 100) : ℤ) : ℚ) / 100)| ≤ 1/2 := by
      rw [hslByte, hcol]
      exact round_close _
    have hvq : (vn:ℚ) = 255 * lf := by
      have := hv
      field_simp at this
      linarith
    have h6 : |(hslByte ((0:ℤ):ℚ) ((0:ℤ):ℚ) ((round (lf * 100) : ℤ) : ℚ) n : ℚ) - (vn:ℚ)| < 6 := by
      have habs := abs_sub_abs_le_abs_sub (0:ℚ) (0:ℚ)
      have e : (hslByte ((0:ℤ):ℚ) ((0:ℤ):ℚ) ((round (lf * 100) : ℤ) : ℚ) n : ℚ) - (vn:ℚ) =
          ((hslByte ((0:ℤ):ℚ) ((0:ℤ):ℚ) ((round (lf * 100) : ℤ) : ℚ) n : ℚ) -
            255 * (((round (lf * 100) : ℤ) : ℚ) / 100)) +
          (255/100) * (((round (lf * 100) : ℤ) : ℚ) - lf * 100) := by
        rw [hvq]
        ring
      rw [e]
      refine (abs_add _ _).trans_lt ?_
      have h2 : |(255/100 : ℚ) * (((round (lf * 100) : ℤ) : ℚ) - lf * 100)| ≤ (255/100) * (1/2) := by
        rw [abs_mul, show |(255/100:ℚ)| = 255/100 by norm_num]
        exact mul_le_mul_of_nonneg_left hlr (by norm_num)
      linarith
    have h6' : |hslByte ((0:ℤ):ℚ) ((0:ℤ):ℚ) ((round (lf * 100) : ℤ) : ℚ) n - (vn:ℤ)| < 6 := by
      have : (|hslByte ((0:ℤ):ℚ) ((0:ℤ):ℚ) ((round (lf * 100) : ℤ) : ℚ) n - (vn:ℤ)| : ℚ) < 6 := by
        push_cast
        exact h6
      exact_mod_cast this
    omega
  · -- chromatic branch: inversion plus the perturbation bound
    have hmnmx : min ((rn:ℚ)/255) (min ((gn:ℚ)/255) ((bn:ℚ)/255)) ≤
        max ((rn:ℚ)/255) (max ((gn:ℚ)/255) ((bn:ℚ)/255)) :=
      (min_le_left _ _).trans (le_max_left _ _)
    have hd : min ((rn:ℚ)/255) (min ((gn:ℚ)/255) ((bn:ℚ)/255)) <
        max ((rn:ℚ)/255) (max ((gn:ℚ)/255) ((bn:ℚ)/255)) :=
      hmnmx.lt_of_ne (fun h => hgr h.symm)
    have hhsl : hslOfBytes rn gn bn =
        ⟨round (hueFrac ((rn:ℚ)/255) ((gn:ℚ)/255) ((bn:ℚ)/255) * 360),
         round (satFrac ((rn:ℚ)/255) ((gn:ℚ)/255) ((bn:ℚ)/255) * 100),
         round ((max ((rn:ℚ)/255) (max ((gn:ℚ)/255) ((bn:ℚ)/255)) +
           min ((rn:ℚ)/255) (min ((gn:ℚ)/255) ((bn:ℚ)/255))) / 2 * 100)⟩ := by
      unfold hslOfBytes
      dsimp only
      rw [if_neg hgr]
    obtain ⟨hsf0, hsf1⟩ := satFrac_mem _ _ _ hr0 hr1 hg0 hg1 hb0 hb1 hd
    have hlf0 : (0:ℚ) ≤ (max ((rn:ℚ)/255) (max ((gn:ℚ)/255) ((bn:ℚ)/255)) +
        min ((rn:ℚ)/255) (min ((gn:ℚ)/255) ((bn:ℚ)/255))) / 2 := by
      have hmn0 : 0 ≤ min ((rn:ℚ)/255) (min ((gn:ℚ)/255) ((bn:ℚ)/255)) :=
        le_min hr0 (le_min hg0 hb0)
      linarith
    obtain ⟨hS0, hS1⟩ := hslOfBytes_s_range rn gn bn hrn hgn hbn
    obtain ⟨hL0, hL1⟩ := hslOfBytes_l_range rn gn bn hrn hgn hbn
    have hS0' : (0:ℚ) ≤ ((hslOfBytes rn gn bn).s : ℚ) := by exact_mod_cast hS0
    have hS1' : ((hslOfBytes rn gn bn).s : ℚ) ≤ 100 := by exact_mod_cast hS1
    have hL0' : (0:ℚ) ≤ ((hslOfBytes rn gn bn).l : ℚ) := by exact_mod_cast hL0
    have hL1' : ((hslOfBytes rn gn bn).l : ℚ) ≤ 100 := by exact_mod_cast hL1
    have hhd : |((hslOfBytes rn gn bn).h : ℚ) -
        hueFrac ((rn:ℚ)/255) ((gn:ℚ)/255) ((bn:ℚ)/255) * 360| ≤ 1/2 := by
      rw [hhsl]
      exact round_close _
    have hsd : |((hslOfBytes rn gn bn).s : ℚ) -
        satFrac ((rn:ℚ)/255) ((gn:ℚ)/255) ((bn:ℚ)/255) * 100| ≤ 1/2 := by
      rw [hhsl]
      exact round_close _
    have hld : |((hslOfBytes rn gn bn).l : ℚ) -
        (max ((rn:ℚ)/255) (max ((gn:ℚ)/255) ((bn:ℚ)/255)) +
          min ((rn:ℚ)/255) (min ((gn:ℚ)/255) ((bn:ℚ)/255))) / 2 * 100| ≤ 1/2 := by
      rw [hhsl]
      exact round_close _
    have hper := hslColor_perturb ((hslOfBytes rn gn bn).h : ℚ) ((hslOfBytes rn gn bn).s : ℚ)
      ((hslOfBytes rn gn bn).l : ℚ)
      (hueFrac ((rn:ℚ)/255) ((gn:ℚ)/255) ((bn:ℚ)/255) * 360)
      (satFrac ((rn:ℚ)/255) ((gn:ℚ)/255) ((bn:ℚ)/255) * 100)
      ((max ((rn:ℚ)/255) (max ((gn:ℚ)/255) ((bn:ℚ)/255)) +
        min ((rn:ℚ)/255) (min ((gn:ℚ)/255) ((bn:ℚ)/255))) / 2 * 100) n
      hhd hsd hld hS0' hS1' (by nlinarith) (by nlinarith) hL0' hL1'
    rw [hexact hgr] at hper
    have hB : |(hslByte ((hslOfBytes rn gn bn).h : ℚ) ((hslOfBytes rn gn bn).s : ℚ)
        ((hslOfBytes rn gn bn).l : ℚ) n : ℚ) -
        255 * hslColor ((hslOfBytes rn gn bn).h : ℚ) ((hslOfBytes rn gn bn).s : ℚ)
          ((hslOfBytes rn gn bn).l : ℚ) n| ≤ 1/2 := by
      rw [hslByte]
      exact round_close _
    have h6 : |(hslByte ((hslOfBytes rn gn bn).h : ℚ) ((hslOfBytes rn gn bn).s : ℚ)
        ((hslOfBytes rn gn bn).l : ℚ) n : ℚ) - (vn:ℚ)| < 6 := by
      have e : (hslByte ((hslOfBytes rn gn bn).h : ℚ) ((hslOfBytes rn gn bn).s : ℚ)
          ((hslOfBytes rn gn bn).l : ℚ) n : ℚ) - (vn:ℚ) =
          ((hslByte ((hslOfBytes rn gn bn).h : ℚ) ((hslOfBytes rn gn bn).s : ℚ)
            ((hslOfBytes rn gn bn).l : ℚ) n : ℚ) -
            255 * hslColor ((hslOfBytes rn gn bn).h : ℚ) ((hslOfBytes rn gn bn).s : ℚ)
              ((hslOfBytes rn gn bn).l : ℚ) n) +
          255 * (hslColor ((hslOfBytes rn gn bn).h : ℚ) ((hslOfBytes rn gn bn).s : ℚ)
            ((hslOfBytes rn gn bn).l : ℚ) n - (vn:ℚ)/255) := by
        ring
      rw [e]
      refine (abs_add _ _).trans_lt ?_
      have h2 : |(255:ℚ) * (hslColor ((hslOfBytes rn gn bn).h : ℚ)
          ((hslOfBytes rn gn bn).s : ℚ) ((hslOfBytes rn gn bn).l : ℚ) n - (vn:ℚ)/255)| ≤
          255 * (1/48) := by
        rw [abs_mul, show |(255:ℚ)| = 255 by norm_num]
        exact mul_le_mul_of_nonneg_left hper (by norm_num)
      linarith
    have h6' : |hslByte ((hslOfBytes rn gn bn).h : ℚ) ((hslOfBytes rn gn bn).s : ℚ)
        ((hslOfBytes rn gn bn).l : ℚ) n - (vn:ℤ)| < 6 := by
      have : (|hslByte ((hslOfBytes rn gn bn).h : ℚ) ((hslOfBytes rn gn bn).s : ℚ)
          ((hslOfBytes rn gn bn).l : ℚ) n - (vn:ℤ)| : ℚ) < 6 := by
        push_cast
        exact h6
      exact_mod_cast this
    omega



/-- C7 (amended): the round-trip reproduces each channel within ±5. -/
theorem C7_thm (P : String) (hv : isValidHex P = true) :
    ∃ hsl rn gn bn rn2 gn2 bn2,
      hexToHSL P = some hsl ∧ parseHex P = some (rn, gn, bn) ∧
      parseHex (hslToHex (hsl.h : ℚ) (hsl.s : ℚ) (hsl.l : ℚ)) = some (rn2, gn2, bn2) ∧
      |(rn2 : ℤ) - (rn : ℤ)| ≤ 5 ∧ |(gn2 : ℤ) - (gn : ℤ)| ≤ 5 ∧ |(bn2 : ℤ) - (bn : ℤ)| ≤ 5 := by
  obtain ⟨⟨rn, gn, bn⟩, hp⟩ := isValidHex_iff_parseHex.mp hv
  obtain ⟨hrn, hgn, hbn⟩ := parseHex_bytes_lt hp
  have hx := hexToHSL_some hp
  obtain ⟨hr0, hr1⟩ := byte_frac_unit hrn
  obtain ⟨hg0, hg1⟩ := byte_frac_unit hgn
  obtain ⟨hb0, hb1⟩ := byte_frac_unit hbn
  obtain ⟨hS0, hS1⟩ := hslOfBytes_s_range rn gn bn hrn hgn hbn
  obtain ⟨hL0, hL1⟩ := hslOfBytes_l_range rn gn bn hrn hgn hbn
  have hS0' : (0:ℚ) ≤ ((hslOfBytes rn gn bn).s : ℚ) := by exact_mod_cast hS0
  have hS1' : ((hslOfBytes rn gn bn).s : ℚ) ≤ 100 := by exact_mod_cast hS1
  have hL0' : (0:ℚ) ≤ ((hslOfBytes rn gn bn).l : ℚ) := by exact_mod_cast hL0
  have hL1' : ((hslOfBytes rn gn bn).l : ℚ) ≤ 100 := by exact_mod_cast hL1
  have hp2 := hslToHex_parse (h := ((hslOfBytes rn gn bn).h : ℚ)) hS0' hS1' hL0' hL1'
  have hB0 := (hslByte_mem (h := ((hslOfBytes rn gn bn).h : ℚ)) 0 hS0' hS1' hL0' hL1').1
  have hB8 := (hslByte_mem (h := ((hslOfBytes rn gn bn).h : ℚ)) 8 hS0' hS1' hL0' hL1').1
  have hB4 := (hslByte_mem (h := ((hslOfBytes rn gn bn).h : ℚ)) 4 hS0' hS1' hL0' hL1').1
  have hinv := fun hne => hsl_inversion ((rn:ℚ)/255) ((gn:ℚ)/255) ((bn:ℚ)/255)
    hr0 hr1 hg0 hg1 hb0 hb1
    (((min_le_left _ _).trans (le_max_left _ _)).lt_of_ne fun h =>
      (hne : ¬ max ((rn:ℚ)/255) (max ((gn:ℚ)/255) ((bn:ℚ)/255)) =
        min ((rn:ℚ)/255) (min ((gn:ℚ)/255) ((bn:ℚ)/255))) h.symm)
  refine ⟨hslOfBytes rn gn bn, rn, gn, bn, _, _, _, hx, hp, hp2, ?_, ?_, ?_⟩
  · rw [Int.toNat_of_nonneg hB0]
    refine roundtrip_byte_close rn gn bn hrn hgn hbn 0 rn ?_ ?_
    · intro hgr
      have h1 : (rn:ℚ)/255 ≤ max ((rn:ℚ)/255) (max ((gn:ℚ)/255) ((bn:ℚ)/255)) :=
        le_max_left _ _
      have h2 : min ((rn:ℚ)/255) (min ((gn:ℚ)/255) ((bn:ℚ)/255)) ≤ (rn:ℚ)/255 :=
        min_le_left _ _
      linarith
    · exact fun hne => (hinv hne).1
  · rw [Int.toNat_of_nonneg hB8]
    refine roundtrip_byte_close rn gn bn hrn hgn hbn 8 gn ?_ ?_
    · intro hgr
      have h1 : (gn:ℚ)/255 ≤ max ((rn:ℚ)/255) (max ((gn:ℚ)/255) ((bn:ℚ)/255)) :=
        (le_max_left _ _).trans (le_max_right _ _)
      have h2 : min ((rn:ℚ)/255) (min ((gn:ℚ)/255) ((bn:ℚ)/255)) ≤ (gn:ℚ)/255 :=
        (min_le_right _ _).trans (min_le_left _ _)
      linarith
    · exact fun hne => (hinv hne).2.1
  · rw [Int.toNat_of_nonneg hB4]
    refine roundtrip_byte_close rn gn bn hrn hgn hbn 4 bn ?_ ?_
    · intro hgr
      have h1 : (bn:ℚ)/255 ≤ max ((rn:ℚ)/255) (max ((gn:ℚ)/255) ((bn:ℚ)/255)) :=
        (le_max_right _ _).trans (le_max_right _ _)
      have h2 : min ((rn:ℚ)/255) (min ((gn:ℚ)/255) ((bn:ℚ)/255)) ≤ (bn:ℚ)/255 :=
        (min_le_right _ _).trans (min_le_right _ _)
      linarith
    · exact fun hne => (hinv hne).2.2



lemma hexToHSL_000002 : hexToHSL "#000002" = some ⟨240, 100, 0⟩ := by
  have hp : parseHex "#000002" = some (0, 0, 2) := by decide
  rw [hexToHSL, hp]
  show some (hslOfBytes 0 0 2) = _
  rw [hslOfBytes]
  norm_num [hueFrac, satFrac, min_def, max_def]

lemma hslToHex_240_100_0 : hslToHex 240 100 0 = "#000000" := by
  have hb : ∀ n : ℚ, hslByte 240 100 0 n = 0 := by
    intro n
    rw [hslByte, hslColor_eq]
    norm_num [min_def]
  rw [hslToHex, hb 0, hb 8, hb 4]
  rfl

/-- C7: the claim that the round-trip
`hslToHex (hexToHSL P).h (hexToHSL P).s (hexToHSL P).l` reproduces every
channel within ±1 is false: for the valid input `'#000002'` the blue
channel drops from 2 to 0 (deviation 2). -/
theorem C7_cex :
    isValidHex "#000002" = true ∧
    hexToHSL "#000002" = some ⟨240, 100, 0⟩ ∧
    hslToHex 240 100 0 = "#000000" ∧
    parseHex "#000002" = some (0, 0, 2) ∧
    parseHex "#000000" = some (0, 0, 0) ∧
    ¬ (|(0:ℤ) - 2| ≤ 1) :=
  ⟨by decide, hexToHSL_000002, hslToHex_240_100_0, by decide, by decide, by decide⟩

/-- Witness for C7 at the primary `'#6366f1'`. -/
theorem C7_witness :
    ∃ hsl rn gn bn rn2 gn2 bn2,
      hexToHSL "#6366f1" = some hsl ∧ parseHex "#6366f1" = some (rn, gn, bn) ∧
      parseHex (hslToHex (hsl.h : ℚ) (hsl.s : ℚ) (hsl.l : ℚ)) = some (rn2, gn2, bn2) ∧
      |(rn2 : ℤ) - (rn : ℤ)| ≤ 5 ∧ |(gn2 : ℤ) - (gn : ℤ)| ≤ 5 ∧ |(bn2 : ℤ) - (bn : ℤ)| ≤ 5 :=
  C7_thm "#6366f1" (by decide)

end ColorGen
